import Mathlib

/-!
Shallow embedding of the crabdeposit identifier codec, record model, deposit
index and deposit builder (src/crabdeposit/udt.py, records.py, deposit.py,
deposit_builder.py), together with proofs settling the specification claims.

Modelling conventions:
* Python `bytes` values are `List Nat` with every element below 256.
* Python `str` values are `List Char`.
* A Python function that can raise returns `Except PyErr α`; each `PyErr`
  constructor is one concrete raise site (or exception class) of the source.
* SHA-256 (`hashlib`) is an external primitive: the embedding is parameterised
  over a digest function `H : List Char → List Nat` standing for
  `lambda s: hashlib.sha256(s.encode("utf-8")).digest()`.
* `numpy.dtype` is likewise external: reading code is parameterised over
  `D : List Char → Except PyErr Nat` giving the parsed dtype's item size.
-/

namespace Crab

abbrev Bytes := List Nat

/-- Exception outcomes of the source, one constructor per raise site / class. -/
inductive PyErr
  /-- RuntimeError "Unrecognised Binary UDT" (udt.py lines 42, 88); the spec
  calls this failure `UnsupportedTag`. -/
  | unsupportedTag
  /-- NameError: the statement `return udt` at udt.py line 72 references the
  undefined name `udt`. -/
  | nameError
  /-- UnboundLocalError: a function-local variable referenced before any
  assignment on the executed path (deposit_builder.py lines 202/243 reference
  `data_size_approx_kb` / `data_batch_size`, assigned only in the data
  section; line 221 references `field_def`, assigned only by the custom-field
  loop). -/
  | unboundLocal
  /-- KeyError from a missing dictionary key (parquet metadata lookups). -/
  | keyError
  /-- IndexError from indexing past the end of a sequence. -/
  | indexError
  /-- ValueError (e.g. `bytes.fromhex` on a non-hex string, `int()` on a
  non-numeric string, numpy reshape mismatch). -/
  | valueError
  /-- struct.error from `struct.pack(">Q", t)` on an out-of-range value. -/
  | structError
  /-- RuntimeError "Unrecognised CRAB deposit file" (deposit.py line 57); the
  spec calls this `UnrecognizedDepositFile`. -/
  | unrecognisedDepositFile
  /-- AttributeError: records.py line 52 reads `self.data_uri` before line 58
  assigns it, so the read raises whenever `raw_data is None`. -/
  | attributeError
  /-- RuntimeError "Need at least Data or Data URI" (records.py line 53); the
  spec calls this `MissingPayload`. -/
  | missingPayload
  /-- RuntimeError "Data extents missing, and could not be inferred". -/
  | missingExtents
  /-- RuntimeError "Mime type missing, and could not be inferred". -/
  | missingContentType
  /-- RuntimeError "Numerical format missing, and could not be inferred". -/
  | missingNumericalFormat
  /-- RuntimeError "Domain types missing". -/
  | missingDomainTypes
  /-- RuntimeError "Domain types must be a list of string definitions". -/
  | domainTypesNotList
  /-- RuntimeError "Number of dimensions in domain type do not match ...". -/
  | dimensionMismatch
  /-- RuntimeError "Data must be a NumPy NDArray, a file-like ... or None". -/
  | badDataType
  /-- RuntimeError "Cannot use input binary UDT with full_string_match". -/
  | binaryWithFullStringMatch
  /-- FileNotFoundError from opening a parquet path that was never written. -/
  | fileNotFound
  /-- pyarrow error: `RecordBatch.from_pydict` given a dict whose keys do not
  match the schema's field names. -/
  | schemaMismatch
  deriving DecidableEq, Repr

instance {ε α : Type} [DecidableEq ε] [DecidableEq α] : DecidableEq (Except ε α) := fun x y =>
  match x, y with
  | .ok a, .ok b => if h : a = b then isTrue (by rw [h]) else isFalse (by simp [h])
  | .error a, .error b => if h : a = b then isTrue (by rw [h]) else isFalse (by simp [h])
  | .ok _, .error _ => isFalse (by simp)
  | .error _, .ok _ => isFalse (by simp)

/-- A Python value that is either `bytes` or `str`, the two input forms the
udt.py helpers dispatch on via `isinstance`. -/
inductive PyVal
  | bin (b : Bytes)
  | str (s : List Char)
  deriving DecidableEq, Repr

/-- Characters of a string literal. -/
def chars (s : String) : List Char := s.data

/-- The Canonical-Name marker `"udt1__"`. -/
def udt1DD : List Char := chars "udt1__"

/-- The Compact-Hex marker `"udt1_"`. -/
def udt1D : List Char := chars "udt1_"

/-- Lower-case hex digit for a value below 16 (`bytes.hex` alphabet). -/
def hexDigitChar (n : Nat) : Char :=
  if n < 10 then Char.ofNat (48 + n) else Char.ofNat (87 + n)

/-- Two-character lower-case hex form of one byte. -/
def byteHexChars (b : Nat) : List Char := [hexDigitChar (b / 16), hexDigitChar (b % 16)]

/-- `bytes.hex()`: lower-case hex of a byte string. -/
def bytesHexChars (bs : Bytes) : List Char := (bs.map byteHexChars).flatten

/-- Value of one hex digit character, upper or lower case. -/
def hexCharVal (c : Char) : Option Nat :=
  if 48 ≤ c.toNat ∧ c.toNat ≤ 57 then some (c.toNat - 48)
  else if 97 ≤ c.toNat ∧ c.toNat ≤ 102 then some (c.toNat - 87)
  else if 65 ≤ c.toNat ∧ c.toNat ≤ 70 then some (c.toNat - 55)
  else .none

/-- `bytes.fromhex`: pairs of hex digits to bytes, ValueError otherwise.
(Python additionally skips ASCII spaces; no input in this development
contains one.) -/
def fromHexChars : List Char → Except PyErr Bytes
  | [] => .ok []
  | [_] => .error .valueError
  | c1 :: c2 :: rest =>
    match hexCharVal c1, hexCharVal c2 with
    | some h, some l => (fromHexChars rest).map (fun bs => (16 * h + l) :: bs)
    | _, _ => .error .valueError

/-- Python `s.split(sep)` for a one-character separator. -/
def splitChar (c : Char) : List Char → List (List Char)
  | [] => [[]]
  | x :: xs =>
    if x = c then [] :: splitChar c xs
    else
      match splitChar c xs with
      | [] => [[x]]
      | p :: ps => (x :: p) :: ps

/-- Helper for `splitDD`: scans for the first `"__"` occurrence, carrying the
current part in reverse. -/
def splitDDGo (acc : List Char) : List Char → List (List Char)
  | [] => [acc.reverse]
  | [c] => [(c :: acc).reverse]
  | c :: d :: cs =>
    if c = '_' ∧ d = '_' then acc.reverse :: splitDDGo [] cs
    else splitDDGo (c :: acc) (d :: cs)

/-- Python `s.split("__")`, the Canonical-Name component separator. -/
def splitDD (s : List Char) : List (List Char) := splitDDGo [] s

/-- Python `l[i]`: IndexError past the end. -/
def pyIndex {α : Type} (l : List α) (i : Nat) : Except PyErr α :=
  match l.get? i with
  | some x => .ok x
  | .none => .error .indexError

/-- Digit run to a natural number. -/
def digitsToNat (ds : List Char) : Nat :=
  ds.foldl (fun acc c => acc * 10 + (c.toNat - 48)) 0

/-- Python `int(s)` restricted to an optional sign followed by decimal digits
(Python also strips whitespace and accepts underscores; no input here has
either). ValueError otherwise. -/
def pyInt (s : List Char) : Except PyErr Int :=
  match s with
  | '-' :: rest =>
    if rest ≠ [] ∧ rest.all Char.isDigit then .ok (-(digitsToNat rest : Int))
    else .error .valueError
  | '+' :: rest =>
    if rest ≠ [] ∧ rest.all Char.isDigit then .ok (digitsToNat rest : Int)
    else .error .valueError
  | _ =>
    if s ≠ [] ∧ s.all Char.isDigit then .ok (digitsToNat s : Int)
    else .error .valueError

/-- Big-endian byte string of width `w` for `n` (low `8*w` bits). -/
def bePack (w : Nat) (n : Nat) : Bytes :=
  (List.range w).map (fun i => n / 256 ^ (w - 1 - i) % 256)

/-- `struct.pack(">Q", t)[2:8]`: struct.error outside the u64 range, else the
low six bytes (silently truncating to 48 bits). -/
def packQtail (t : Int) : Except PyErr Bytes :=
  if t < 0 ∨ (2 : Int) ^ 64 ≤ t then .error .structError
  else .ok ((bePack 8 t.toNat).drop 2)

/-- Python `str.lower()` restricted to ASCII (`Char.toLower`). -/
def pyLower (s : List Char) : List Char := s.map Char.toLower

/-- udt.py `string_udt`: Compact Key bytes to the Compact Hex string; any
non-bytes input is returned unchanged. -/
def string_udt : PyVal → Except PyErr PyVal
  | .str s => .ok (.str s)
  | .bin b =>
    match b.head? with
    | some 2 =>
      .ok (.str (udt1D ++ (bytesHexChars ((b.drop 1).take 6) ++
        '_' :: (bytesHexChars ((b.drop 7).take 8) ++
        '_' :: bytesHexChars ((b.drop 15).take 6)))))
    | some 3 =>
      .ok (.str (udt1D ++ (bytesHexChars ((b.drop 1).take 6) ++
        '_' :: (bytesHexChars ((b.drop 7).take 8) ++
        '_' :: (bytesHexChars ((b.drop 15).take 6) ++
        '_' :: bytesHexChars ((b.drop 21).take 8))))))
    | some _ => .error .unsupportedTag
    | .none => .error .indexError

/-- udt.py `binary_udt`: any input form to Compact Key bytes. `H` models the
SHA-256 digest of a utf-8 encoded string. -/
def binary_udt (H : List Char → Bytes) : PyVal → Except PyErr Bytes
  | .bin b => .ok b
  | .str s =>
    if udt1DD.isPrefixOf s then do
      let cmps := splitDD (s.drop 6)
      let vendor ← pyIndex cmps 0
      let device ← pyIndex cmps 1
      let vdp := (H (vendor ++ (chars "__" ++ device))).take 6
      let devId ← pyIndex cmps 2
      let did := (H (pyLower devId)).take 8
      let tsStr ← pyIndex cmps 3
      let t ← pyInt tsStr
      let ts ← packQtail t
      if 4 < cmps.length then do
        let inst ← pyIndex cmps 4
        let imid := (H inst).take 8
        .ok (3 :: (vdp ++ (did ++ (ts ++ imid))))
      else
        .ok (2 :: (vdp ++ (did ++ ts)))
    else if udt1D.isPrefixOf s then do
      let cmps := splitChar '_' (s.drop 5)
      let p0 ← pyIndex cmps 0
      let vdp ← fromHexChars p0
      let p1 ← pyIndex cmps 1
      let did ← fromHexChars p1
      let p2 ← pyIndex cmps 2
      let ts ← fromHexChars p2
      if 3 < cmps.length then do
        let p3 ← pyIndex cmps 3
        let imid ← fromHexChars p3
        .ok (3 :: (vdp ++ (did ++ (ts ++ imid))))
      else
        .ok (2 :: (vdp ++ (did ++ ts)))
    else
      -- udt.py line 72 is `return udt`; the name `udt` is not defined in
      -- that scope, so Python raises NameError here instead of returning.
      .error .nameError

/-- Zero-padded width-12 lower-case hex (`"\x7b:012x\x7d".format(t)`). -/
def hexPad12 (t : Int) : List Char :=
  let natHex : Nat → List Char := fun n =>
    let ds := (Nat.toDigits 16 n)
    ds
  if t < 0 then
    let body := natHex (-t).toNat
    '-' :: (List.replicate (11 - body.length) '0' ++ body)
  else
    let body := natHex t.toNat
    List.replicate (12 - body.length) '0' ++ body

/-- udt.py `small_udt`: Group Key derivation. On bytes: tag 2 returned
unchanged, tag 3 stripped of its instance digest and retagged 2, anything
else raises. On a Canonical Name: the hexdigest-based compact string. Any
other string is returned unchanged. -/
def small_udt (H : List Char → Bytes) : PyVal → Except PyErr PyVal
  | .bin b =>
    match b.head? with
    | some 2 => .ok (.bin b)
    | some 3 =>
      .ok (.bin (2 :: ((b.drop 1).take 6 ++ ((b.drop 7).take 8 ++ (b.drop 15).take 6))))
    | some _ => .error .unsupportedTag
    | .none => .error .indexError
  | .str s =>
    if udt1DD.isPrefixOf s then do
      let cmps := splitDD (s.drop 6)
      let vendor ← pyIndex cmps 0
      let device ← pyIndex cmps 1
      let vdp := (bytesHexChars (H (vendor ++ (chars "__" ++ device)))).take 12
      let devId ← pyIndex cmps 2
      let did := (bytesHexChars (H (pyLower devId))).take 16
      let tsStr ← pyIndex cmps 3
      let t ← pyInt tsStr
      let ts := hexPad12 t
      let base := udt1D ++ (vdp ++ ('_' :: (did ++ ('_' :: ts))))
      if 4 < cmps.length then do
        let inst ← pyIndex cmps 4
        .ok (.str (base ++ '_' :: (bytesHexChars (H inst)).take 16))
      else
        .ok (.str base)
    else
      .ok (.str s)

/-- `small_udt` on bytes, projected back to bytes (on bytes input the result
is always bytes; the `.str` case is unreachable). -/
def smallBytes (H : List Char → Bytes) (b : Bytes) : Except PyErr Bytes := do
  match ← small_udt H (.bin b) with
  | .bin s => .ok s
  | .str _ => .error .valueError

/-- The `data` argument of `DataRecord.__init__` as the `isinstance` chain of
records.py lines 39-51 classifies it: a file-like object (with its byte
content), a numpy array (shape, dtype string, C-order byte content), `None`,
or anything else. -/
inductive PyData
  | buffered (content : Bytes)
  | ndarray (shape : List Nat) (dtypeStr : List Char) (content : Bytes)
  | pynone
  | other
  deriving DecidableEq, Repr

/-- The `domain_types` argument: `None`, a list of strings, or a non-list. -/
inductive DomArg
  | dnone
  | dlist (l : List (List Char))
  | dnonlist
  deriving DecidableEq, Repr

/-- The `sha256` argument: `None`, a hex string, or bytes (any other type is
silently ignored by records.py lines 93-97, leaving the hash unset). -/
inductive ShaArg
  | snone
  | sstr (s : List Char)
  | sbytes (b : Bytes)
  deriving DecidableEq, Repr

/-- Arguments of `DataRecord.__init__` (records.py line 35), with the source's
defaults. -/
structure DRArgs where
  udt : PyVal
  data : PyData
  last_modified : Int
  data_uri : Option (List Char) := .none
  bin_udt : Option Bytes := .none
  bin_compact_udt : Option Bytes := .none
  mime_type : Option (List Char) := .none
  domain_types : DomArg := .dnone
  numerical_format : Option (List Char) := .none
  bit_depth : Option Nat := .none
  value_domain : List Char := chars "magnitude"
  extents : Option (List Nat) := .none
  sha256 : ShaArg := .snone
  deriving Repr

/-- `"application/octet-stream"`. -/
def octetStream : List Char := chars "application/octet-stream"

/-- A fully constructed `DataRecord` (the attributes `__init__` leaves on a
successfully built instance). -/
structure DRState where
  extents : List Nat
  raw_data : PyData
  mime_type : List Char
  data_uri : Option (List Char)
  udt : PyVal
  last_modified : Int
  bin_udt : Bytes
  bin_compact_udt : Bytes
  numerical_format : List Char
  domain_types : List (List Char)
  bit_depth : Nat
  value_domain : List Char
  shaStored : Option Bytes
  deriving DecidableEq, Repr

/-- First run of decimal digits of a string (`re.findall(r'\d+', s)[0]`),
or `none` when the string has no digit. -/
def firstDigitRun (s : List Char) : Option Nat :=
  let ds := ((s.dropWhile (fun c => ¬ c.isDigit)).takeWhile Char.isDigit)
  if ds = [] then .none else some (digitsToNat ds)

/-- records.py `DataRecord.__init__` (lines 35-97), following the source's
statement order exactly. Note on line 52: the condition
`(self.raw_data is None) and (self.data_uri is None)` reads `self.data_uri`,
which is first assigned at line 58, so whenever the short-circuit evaluates
the right operand (that is, whenever `raw_data is None`) Python raises
AttributeError; the MissingPayload raise at line 53 is unreachable. -/
def dataRecordInit (H : List Char → Bytes) (a : DRArgs) : Except PyErr DRState := do
  -- lines 36-51: classify `data`, setting raw_data / mime_type / extents
  let (raw, mime0, ext0) ←
    match a.data with
    | .buffered _ => Except.ok (a.data, a.mime_type, a.extents)
    | .ndarray sh _ _ =>
      Except.ok (a.data, some octetStream,
        if a.extents = .none then some sh else a.extents)
    | .pynone => Except.ok (a.data, a.mime_type, a.extents)
    | .other => Except.error .badDataType
  -- line 52: short-circuit `and`; reading self.data_uri raises
  if raw = PyData.pynone then
    Except.error .attributeError
  else do
  -- lines 54-57
  let extents ← match ext0 with
    | .none => Except.error .missingExtents
    | some e => Except.ok e
  let mime ← match mime0 with
    | .none => Except.error .missingContentType
    | some m => Except.ok m
  -- lines 58-66
  let bin ← match a.bin_udt with
    | some b => Except.ok b
    | .none => binary_udt H a.udt
  let binCompact ← match a.bin_compact_udt with
    | some b => Except.ok b
    | .none => smallBytes H bin
  -- lines 68-72
  let numFmt ← match a.numerical_format with
    | some s => Except.ok s
    | .none =>
      match a.data with
      | .ndarray _ dt _ => Except.ok dt
      | _ => Except.error .missingNumericalFormat
  -- lines 74-82
  let domT ← match a.domain_types with
    | .dnone => Except.error .missingDomainTypes
    | .dnonlist => Except.error .domainTypesNotList
    | .dlist l =>
      match a.data with
      | .ndarray sh _ _ =>
        if l.length ≠ sh.length then Except.error .dimensionMismatch
        else Except.ok l
      | _ => Except.ok l
  -- lines 86-89
  let bitDepth ← match a.bit_depth with
    | some n => Except.ok n
    | .none =>
      match firstDigitRun numFmt with
      | some n => Except.ok n
      | .none => Except.error .indexError
  -- lines 92-97
  let sha ← match a.sha256 with
    | .snone => Except.ok (Option.none)
    | .sstr s => (fromHexChars s).map some
    | .sbytes b => Except.ok (some b)
  Except.ok {
    extents := extents
    raw_data := raw
    mime_type := mime
    data_uri := a.data_uri
    udt := a.udt
    last_modified := a.last_modified
    bin_udt := bin
    bin_compact_udt := binCompact
    numerical_format := numFmt
    domain_types := domT
    bit_depth := bitDepth
    value_domain := a.value_domain
    shaStored := sha
  }

/-- One row of a DATA deposit file, carrying the columns of the data schema
(deposit_builder.py lines 113-126). `domain_types` is kept structurally: the
builder stores `json.dumps(record.domain_types)` and the reader applies
`json.loads`, a lossless round trip for a list of strings. -/
structure PRow where
  udt : List Char
  udt_bin : Bytes
  data : Option Bytes
  data_uri : Option (List Char)
  shaVal : Bytes
  mime_type : List Char
  numerical_format : List Char
  domain_types : List (List Char)
  value_domain : List Char
  bit_depth : Nat
  last_modified : Int
  extents : List Nat
  deriving DecidableEq, Repr

/-- `"CRAB_DATA_V1"`. -/
def dataV1 : List Char := chars "CRAB_DATA_V1"

/-- `"CRAB_ANNOTATION_V1"`. -/
def annoV1 : List Char := chars "CRAB_ANNOTATION_V1"

/-- A finished parquet deposit file as the index reads it: the metadata keys
the source consults (`data_type`, `contains_udts`, `references_udts`; absent
keys are `none` and raise KeyError when looked up) and its row groups.
Row groups of ANNOTATION files are not consulted by any modelled operation
and are left empty. The `last_modified` metadata value is not consulted
either and is omitted. -/
structure PFile where
  dataType : Option (List Char)
  contains : Option Bytes
  references : Option Bytes
  rowGroups : List (List PRow)
  deriving DecidableEq, Repr

/-- The mutable state of a `Deposit` (deposit.py lines 36-41): opened files,
indices of DATA and ANNOTATION files, and the Group-Key-to-file-indices map
as an insertion-ordered association list (CPython dict order). -/
structure DepositState where
  pfiles : List PFile
  dataIdx : List Nat
  annoIdx : List Nat
  udtMap : List (Bytes × List Nat)
  deriving DecidableEq, Repr

/-- `Deposit.__init__`. -/
def initDeposit : DepositState := ⟨[], [], [], []⟩

/-- Dict lookup in the Group-Key map. -/
def mapFind (m : List (Bytes × List Nat)) (k : Bytes) : Option (List Nat) :=
  (m.find? (fun e => e.1 == k)).map Prod.snd

/-- deposit.py lines 66-68: create the key's list if absent, then append the
file index. -/
def mapAdd (m : List (Bytes × List Nat)) (k : Bytes) (i : Nat) :
    List (Bytes × List Nat) :=
  if m.any (fun e => e.1 == k) then
    m.map (fun e => if e.1 == k then (e.1, e.2 ++ [i]) else e)
  else m ++ [(k, [i])]

/-- `[pf_udts_str[i:i+21] for i in range(0, len(pf_udts_str), 21)]`:
`range(0, n, 21)` has `⌈n / 21⌉` indices `21*i`, and each slice takes the
next up-to-21 bytes. -/
def chunks21 (s : Bytes) : List Bytes :=
  (List.range ((s.length + 20) / 21)).map (fun i => (s.drop (21 * i)).take 21)

/-- Processing of one file inside `set_deposit_files` (deposit.py lines
45-68). All mutations of the step happen after its possible raises, so the
step either returns the updated state or leaves the state untouched. -/
def sdfStep (st : DepositState) (pfi : Nat) (f : PFile) :
    Except PyErr DepositState := do
  let (pfUdts, isData) ←
    match f.dataType with
    | Option.none => Except.error .keyError
    | some t =>
      if t = dataV1 then
        match f.contains with
        | Option.none => Except.error .keyError
        | some s => Except.ok (s, true)
      else if t = annoV1 then
        match f.references with
        | Option.none => Except.error .keyError
        | some s => Except.ok (s, false)
      else Except.error .unrecognisedDepositFile
  let st := if isData then { st with dataIdx := st.dataIdx ++ [pfi] }
    else { st with annoIdx := st.annoIdx ++ [pfi] }
  let st := { st with pfiles := st.pfiles ++ [f] }
  let st := { st with
    udtMap := (chunks21 pfUdts).foldl (fun m k => mapAdd m k pfi) st.udtMap }
  Except.ok st

/-- The enumerate loop of `set_deposit_files`: on a raise the exception
propagates and the `Deposit` keeps every mutation made for the files already
processed. -/
def sdfGo (st : DepositState) (pfi : Nat) :
    List PFile → DepositState × Option PyErr
  | [] => (st, Option.none)
  | f :: rest =>
    match sdfStep st pfi f with
    | .error e => (st, some e)
    | .ok st' => sdfGo st' (pfi + 1) rest

/-- deposit.py `Deposit.set_deposit_files` (lines 43-68): returns the state
after the call together with the exception it raised, if any. -/
def set_deposit_files (st : DepositState) (files : List PFile) :
    DepositState × Option PyErr :=
  sdfGo st 0 files

/-- deposit.py `Deposit.get_referencing_indicies` (lines 73-78). -/
def get_referencing_indicies (H : List Char → Bytes) (st : DepositState)
    (udt : PyVal) : Except PyErr (List Nat) := do
  let b ← binary_udt H udt
  let sb ← smallBytes H b
  match mapFind st.udtMap sb with
  | some l => Except.ok l
  | Option.none => Except.ok []

/-- deposit.py lines 97-120: materialize one matched row into a `DataRecord`.
`D` models `numpy.dtype`, giving the item size of a parsed format string (and
failing where numpy would reject the string). The numpy steps are
`frombuffer` (ValueError unless the byte length is a multiple of the item
size) and `reshape` (ValueError unless the element count matches the product
of the extents). -/
def materialize (H : List Char → Bytes) (D : List Char → Except PyErr Nat)
    (row : PRow) : Except PyErr DRState := do
  let itemsize ← D row.numerical_format
  let dataArg ←
    match row.data with
    | Option.none => Except.ok PyData.pynone
    | some content =>
      if row.mime_type = octetStream then
        if content.length % itemsize ≠ 0 then Except.error .valueError
        else if content.length / itemsize ≠ row.extents.foldl (· * ·) 1 then
          Except.error .valueError
        else Except.ok (PyData.ndarray row.extents row.numerical_format content)
      else Except.ok (PyData.buffered content)
  dataRecordInit H {
    udt := .str row.udt
    data := dataArg
    last_modified := row.last_modified
    data_uri := row.data_uri
    bin_udt := some row.udt_bin
    mime_type := some row.mime_type
    domain_types := .dlist row.domain_types
    value_domain := row.value_domain
    numerical_format := some row.numerical_format
    bit_depth := some row.bit_depth
    extents := some row.extents
    sha256 := .sbytes row.shaVal
  }

/-- The row scan of `get_data_record` over the concatenated row groups of one
file: the first row whose `udt_bin` equals the key (and, in strict mode,
whose udt string equals the queried string) is materialized and returned. -/
def gdrScanRows (H : List Char → Bytes) (D : List Char → Except PyErr Nat)
    (fsm : Bool) (udtArg : PyVal) (budt : Bytes) :
    List PRow → Except PyErr (Option DRState)
  | [] => Except.ok Option.none
  | row :: rest =>
    if row.udt_bin = budt then
      -- strict mode compares the stored udt string with the query; a bytes
      -- query never equals a string in Python, so the row is skipped then
      if fsm = false ∨ udtArg = .str row.udt then
        (materialize H D row).map some
      else gdrScanRows H D fsm udtArg budt rest
    else gdrScanRows H D fsm udtArg budt rest

/-- The file loop of `get_data_record`: DATA files among the candidate
indices, in candidate order. -/
def gdrFiles (H : List Char → Bytes) (D : List Char → Except PyErr Nat)
    (st : DepositState) (fsm : Bool) (udtArg : PyVal) (budt : Bytes) :
    List Nat → Except PyErr (Option DRState)
  | [] => Except.ok Option.none
  | pfi :: rest =>
    if st.dataIdx.contains pfi then
      match st.pfiles.get? pfi with
      | Option.none => Except.error .indexError
      | some f => do
        match ← gdrScanRows H D fsm udtArg budt f.rowGroups.flatten with
        | some r => Except.ok (some r)
        | Option.none => gdrFiles H D st fsm udtArg budt rest
    else gdrFiles H D st fsm udtArg budt rest

/-- deposit.py `Deposit.get_data_record` (lines 80-120): the spec's
`lookupExact`. Returns the first matching Data Record, or `none`. -/
def get_data_record (H : List Char → Bytes) (D : List Char → Except PyErr Nat)
    (st : DepositState) (udt : PyVal) (fsm : Bool := false) :
    Except PyErr (Option DRState) := do
  let budt ← binary_udt H udt
  if fsm ∧ udt = .bin budt then Except.error .binaryWithFullStringMatch
  else do
    let pfis ← get_referencing_indicies H st (.bin budt)
    gdrFiles H D st fsm udt budt pfis

/-- The row filter of `get_prefixed_udts`: rows whose Compact Key starts with
the extended (tag `| 1`) form or equals the queried key exactly, projected to
their udt strings (with the optional strict string check of line 188). -/
def gpuRows (fsm : Bool) (prefArg : PyVal) (tb budt : Bytes)
    (rows : List PRow) : List (List Char) :=
  (rows.filter (fun row =>
    (tb.isPrefixOf row.udt_bin || row.udt_bin == budt) &&
    (fsm = false ||
      match prefArg with
      | .str p => p.isPrefixOf row.udt
      | .bin _ => false))).map (·.udt)

/-- The file loop of `get_prefixed_udts`, accumulating matches over every
candidate DATA file. -/
def gpuFiles (st : DepositState) (fsm : Bool) (prefArg : PyVal)
    (tb budt : Bytes) : List Nat → Except PyErr (List (List Char))
  | [] => Except.ok []
  | pfi :: rest =>
    if st.dataIdx.contains pfi then
      match st.pfiles.get? pfi with
      | Option.none => Except.error .indexError
      | some f => do
        let more ← gpuFiles st fsm prefArg tb budt rest
        Except.ok (gpuRows fsm prefArg tb budt f.rowGroups.flatten ++ more)
    else gpuFiles st fsm prefArg tb budt rest

/-- deposit.py `Deposit.get_prefixed_udts` (lines 169-190): the spec's
`lookupGroupOrItem`. The search key's tag byte is OR-ed with 1 (line 176) to
form the extended-match pattern. -/
def get_prefixed_udts (H : List Char → Bytes) (st : DepositState)
    (pref : PyVal) (fsm : Bool := false) : Except PyErr (List (List Char)) := do
  let budt ← binary_udt H pref
  if fsm ∧ pref = .bin budt then Except.error .binaryWithFullStringMatch
  else do
    let tb ← match budt with
      | [] => Except.error .indexError
      | t :: r => Except.ok ((1 ||| t) :: r)
    let pfis ← get_referencing_indicies H st (.bin budt)
    gpuFiles st fsm pref tb budt pfis

/-- A constructed `DataRecord` as the builder's data loop reads it
(deposit_builder.py lines 151-170): the attribute values it consumes.
`shaVal` is the value of `record.sha256()` (the cached or lazily computed
SHA-256 digest, an external primitive). -/
structure DRec where
  udt : List Char
  bin_udt : Bytes
  raw_data : PyData
  data_uri : Option (List Char)
  shaVal : Bytes
  mime_type : List Char
  numerical_format : List Char
  domain_types : List (List Char)
  bit_depth : Nat
  value_domain : List Char
  last_modified : Int
  extents : List Nat
  deriving DecidableEq, Repr

/-- A constructed `AnnotationRecord` as the builder's annotation loop reads it
(deposit_builder.py lines 248-270), restricted to the attributes the modelled
claims consult. The uuid / extents / annotator columns are built from
further attributes that no claim mentions. -/
structure ARec where
  udt : List Char
  bin_udt : Bytes
  shaVal : Bytes
  field_dict : List (List Char × Int)
  discard_field_list : List (List Char)
  last_modified : Int
  deriving DecidableEq, Repr

/-- The row the data loop appends for one record (deposit_builder.py lines
151-170): `data` is `None` when `record.raw_data` is, else
`record.as_bytes()`. -/
def dataRowOf (r : DRec) : PRow := {
  udt := r.udt
  udt_bin := r.bin_udt
  data :=
    match r.raw_data with
    | .pynone => Option.none
    | .buffered c => some c
    | .ndarray _ _ c => some c
    | .other => Option.none
  data_uri := r.data_uri
  shaVal := r.shaVal
  mime_type := r.mime_type
  numerical_format := r.numerical_format
  domain_types := r.domain_types
  value_domain := r.value_domain
  bit_depth := r.bit_depth
  last_modified := r.last_modified
  extents := r.extents
}

/-- `data_batch_size = int(65536 / 32)` (deposit_builder.py lines 108-110):
the per-batch record count targeting ~64 MiB at ~32 KiB per record. -/
def dataBatchSize : Nat := 65536 / 32

/-- The builder's pull loop for a provider already known to be non-empty:
each `while` iteration pulls up to `dataBatchSize` records and writes them as
one batch, and the batch in which the provider raised StopIteration is still
written — so the loop writes `len / dataBatchSize + 1` batches, the i-th
holding records `[size*i, size*(i+1))`, with one trailing empty batch when
the source size is an exact positive multiple of the batch size. -/
def pullChunks {α : Type} (xs : List α) : List (List α) :=
  (List.range (xs.length / dataBatchSize + 1)).map
    (fun i => (xs.drop (dataBatchSize * i)).take dataBatchSize)

/-- Python `set.add` on the running catalog, modelled as an insertion-ordered
duplicate-free list. -/
def catInsert (c : List Bytes) (x : Bytes) : List Bytes :=
  if c.contains x then c else c ++ [x]

/-- The catalog accumulation across one record sequence: when `build_stats`
is set, `small_udt(record.bin_udt)` is added per record (deposit_builder.py
lines 153-154 and 250-251); otherwise the records are not consulted. -/
def catAdd (H : List Char → Bytes) (buildStats : Bool) (c : List Bytes) :
    List Bytes → Except PyErr (List Bytes)
  | [] => Except.ok c
  | k :: rest =>
    if buildStats then do
      let s ← smallBytes H k
      catAdd H buildStats (catInsert c s) rest
    else catAdd H buildStats c rest

/-- The ten fixed columns of the annotation schema (deposit_builder.py lines
206-217), in source order. -/
def annotationBaseCols : List (List Char) :=
  [chars "udt", chars "udt_bin", chars "uuid", chars "sha256",
   chars "last_modified", chars "extents", chars "origin_extents",
   chars "annotator", chars "annotation_software", chars "discard_in_favour"]

/-- The annotation schema's column names (deposit_builder.py lines 206-222).
Line 221 appends, for EVERY registered discard field, a column named after
`field_def[0]` — the loop variable left over from the custom-field loop of
lines 218-219, i.e. the LAST registered custom field — instead of
`discard_field_def`. With no registered custom field and at least one
discard field, `field_def` was never assigned and the line raises
UnboundLocalError. -/
def annotationSchemaNames (fields discard : List (List Char)) :
    Except PyErr (List (List Char)) :=
  let base := annotationBaseCols ++ fields.map (fun f => chars "field_" ++ f)
  if discard.isEmpty then Except.ok base
  else
    match fields.getLast? with
    | Option.none => Except.error .unboundLocal
    | some lastF =>
      Except.ok (base ++ discard.map (fun _ => chars "discard_field_" ++ lastF))

/-- The keys of the per-batch dict handed to `RecordBatch.from_pydict`
(deposit_builder.py lines 237-241 and 274-287): here the discard columns DO
use the discard field's own name. -/
def annotationDictKeys (fields discard : List (List Char)) : List (List Char) :=
  annotationBaseCols ++ fields.map (fun f => chars "field_" ++ f) ++
    discard.map (fun d => chars "discard_field_" ++ d)

/-- The values of one discard column over a record batch (deposit_builder.py
lines 266-270): `True` when the field name is in the record's discard list,
`None` (not `False`) otherwise. -/
def discardColVals (d : List Char) (recs : List ARec) : List (Option Bool) :=
  recs.map (fun r => if r.discard_field_list.contains d then some true else Option.none)

/-- The builder's configuration at the time `build()` is called: the two
providers (as the finite record sequences they yield), the registered custom
field names (their pyarrow dtypes do not influence any modelled claim), the
registered discard field names, and the explicitly supplied catalog, if any.
Output locations are modelled positionally (data slot, annotation slot). -/
structure BuilderCfg where
  dataRecs : List DRec
  annoRecs : List ARec
  customFields : List (List Char) := []
  discardFields : List (List Char) := []
  explicitCat : Option (List Bytes) := Option.none

/-- Everything `build()` leaves behind: the finalized files (metadata stamped
and writer closed — `none` when the section never opened a writer or the
build aborted before stamping), the data batches written, the number of
annotation batches written, and the call's outcome (the returned `Deposit`
or the exception raised). -/
structure BuildResult where
  dataFile : Option PFile
  annoFile : Option PFile
  dataBatches : List (List PRow)
  annoBatchCount : Nat
  result : Except PyErr DepositState

/-- The data section of `build()` (deposit_builder.py lines 103-193): on an
empty provider the initial `next` raises StopIteration, caught at line 192,
and no writer is opened; otherwise the records are pulled into batches while
the running catalog accumulates Group Keys. -/
def dataPhase (H : List Char → Bytes) (buildStats : Bool) (cat0 : List Bytes)
    (recs : List DRec) : Except PyErr (List (List PRow) × List Bytes) :=
  if recs.isEmpty then Except.ok ([], cat0)
  else do
    let cat ← catAdd H buildStats cat0 (recs.map (·.bin_udt))
    Except.ok ((pullChunks recs).map (fun b => b.map dataRowOf), cat)

/-- The annotation section of `build()` (deposit_builder.py lines 195-295).
With a non-empty annotation provider, line 202 evaluates
`int(65536 / data_size_approx_kb)` and line 243 `range(data_batch_size)`:
both locals are assigned only inside the data section's `try` (lines
108-110), so when the data provider was empty the section raises
UnboundLocalError. The batch loop otherwise uses `data_batch_size` — not the
annotation estimate of line 200. Each batch is handed to
`RecordBatch.from_pydict`, which rejects a dict whose keys differ from the
schema's field names. -/
def annoPhase (H : List Char → Bytes) (buildStats : Bool) (cat1 : List Bytes)
    (cfg : BuilderCfg) : Except PyErr (Nat × List Bytes) :=
  if cfg.annoRecs.isEmpty then Except.ok (0, cat1)
  else if cfg.dataRecs.isEmpty then Except.error .unboundLocal
  else do
    let names ← annotationSchemaNames cfg.customFields cfg.discardFields
    let cat2 ← catAdd H buildStats cat1 (cfg.annoRecs.map (·.bin_udt))
    if names = annotationDictKeys cfg.customFields cfg.discardFields then
      Except.ok ((pullChunks cfg.annoRecs).length, cat2)
    else Except.error .schemaMismatch

/-- The finalized DATA file (deposit_builder.py lines 297-304): type tag and
the concatenated catalog under `contains_udts`. -/
def mkDataFile (batches : List (List PRow)) (cat : List Bytes) : PFile := {
  dataType := some dataV1
  contains := some cat.flatten
  references := Option.none
  rowGroups := batches
}

/-- The finalized ANNOTATION file (deposit_builder.py lines 306-313): type
tag and the same concatenated catalog under `references_udts`. -/
def mkAnnoFile (cat : List Bytes) : PFile := {
  dataType := some annoV1
  contains := Option.none
  references := some cat.flatten
  rowGroups := []
}

/-- deposit_builder.py `DepositBuilder.build` (lines 94-317). `fs0` is the
pair of files already present at the two output locations before the call,
if any: the final `set_deposit_files([data_uri, annotation_uri])` at line 316
always opens BOTH locations, raising FileNotFoundError when a location was
neither written by this build nor already occupied. -/
def build (H : List Char → Bytes) (cfg : BuilderCfg)
    (fs0 : Option PFile × Option PFile) : BuildResult :=
  -- lines 95-98
  let buildStats := cfg.explicitCat.isNone
  let cat0 := (cfg.explicitCat).getD []
  match dataPhase H buildStats cat0 cfg.dataRecs with
  | .error e => ⟨Option.none, Option.none, [], 0, .error e⟩
  | .ok (dbatches, cat1) =>
    match annoPhase H buildStats cat1 cfg with
    | .error e => ⟨Option.none, Option.none, dbatches, 0, .error e⟩
    | .ok (nanno, cat2) =>
      let df := if cfg.dataRecs.isEmpty then Option.none
        else some (mkDataFile dbatches cat2)
      let af := if cfg.annoRecs.isEmpty then Option.none
        else some (mkAnnoFile cat2)
      let slot1 := match df with | some f => some f | Option.none => fs0.1
      let slot2 := match af with | some f => some f | Option.none => fs0.2
      let res :=
        match slot1, slot2 with
        | some f1, some f2 =>
          match set_deposit_files initDeposit [f1, f2] with
          | (st, Option.none) => Except.ok st
          | (_, some e) => Except.error e
        | _, _ => Except.error .fileNotFound
      ⟨df, af, dbatches, nanno, res⟩

/-- The Group Key of a Compact Key with tag 2 or 3, as a pure function (the
value `small_udt` returns on such input). -/
def gkey (k : Bytes) : Bytes :=
  match k with
  | 2 :: _ => k
  | 3 :: t => 2 :: (t.take 6 ++ ((t.drop 6).take 8 ++ (t.drop 14).take 6))
  | _ => k

/-- A well-formed Compact Key: tag byte 2 with 21 bytes total or tag byte 3
with 29 bytes total, every element a byte value. -/
def WfKey (k : Bytes) : Prop :=
  ((k.head? = some 2 ∧ k.length = 21) ∨ (k.head? = some 3 ∧ k.length = 29)) ∧
    ∀ b ∈ k, b < 256

instance (k : Bytes) : Decidable (WfKey k) := by
  unfold WfKey; infer_instance

/-- A deposit file `set_deposit_files` accepts: a recognised type tag with
the catalog key that type requires. -/
def ValidPF (f : PFile) : Prop :=
  (f.dataType = some dataV1 ∧ f.contains.isSome) ∨
    (f.dataType = some annoV1 ∧ f.references.isSome)

instance (f : PFile) : Decidable (ValidPF f) := by
  unfold ValidPF; infer_instance

/-- Executable stand-in for the SHA-256 digest primitive in witnesses: 32
bytes derived from the input length. -/
def Hd : List Char → Bytes := fun s => (List.range 32).map (fun i => (i + s.length) % 256)

/-- Executable stand-in for `numpy.dtype` in witnesses: every format string
parses with item size 1. -/
def Dd : List Char → Except PyErr Nat := fun _ => Except.ok 1

/-- The i-th sample Item Key: tag 3, first body byte `i % 256`. -/
def sampleKey (i : Nat) : Bytes :=
  3 :: ((List.range 28).map (fun j => if j = 0 then i % 256 else j))

/-- The i-th sample Data Record fed to the builder in witnesses. -/
def sampleRec (i : Nat) : DRec := {
  udt := ['r']
  bin_udt := sampleKey i
  raw_data := .buffered [i % 256]
  data_uri := Option.none
  shaVal := [7]
  mime_type := chars "text/plain"
  numerical_format := chars "uint8"
  domain_types := []
  bit_depth := 8
  value_domain := chars "magnitude"
  last_modified := 0
  extents := [1]
}

/-- 130 sample Data Records. -/
def sampleRecs : List DRec := (List.range 130).map sampleRec

/-- The i-th sample Annotation Record. -/
def sampleAnno (i : Nat) : ARec := {
  udt := ['a']
  bin_udt := sampleKey i
  shaVal := [7]
  field_dict := []
  discard_field_list := [chars "labelled"]
  last_modified := 0
}

/-- A DATA row with the given udt string and Compact Key (remaining columns
held fixed at well-formed values). -/
def mkRow (s : List Char) (b : Bytes) : PRow := {
  udt := s
  udt_bin := b
  data := some [0]
  data_uri := Option.none
  shaVal := [7]
  mime_type := chars "text/plain"
  numerical_format := chars "uint8"
  domain_types := []
  value_domain := chars "magnitude"
  bit_depth := 8
  last_modified := 0
  extents := [1]
}

/-- A DATA deposit file with the given catalog bytes and one row group. -/
def mkDataPFile (cat : Bytes) (rows : List PRow) : PFile := {
  dataType := some dataV1
  contains := some cat
  references := Option.none
  rowGroups := [rows]
}

/-- Builder configuration of the 130-record round-trip scenario: 130 data
records, no annotations, no explicit catalog. -/
def c4cfg : BuilderCfg := { dataRecs := sampleRecs, annoRecs := [] }

/-- Builder configuration with an empty data source and one annotation. -/
def c5cfgAnnoOnly : BuilderCfg := { dataRecs := [], annoRecs := [sampleAnno 0] }

/-- Builder configuration with every source empty. -/
def c5cfgEmpty : BuilderCfg := { dataRecs := [], annoRecs := [] }

/-- Well-formed `DataRecord.__init__` arguments except that `data` is `None`
and an external-reference URI is supplied. -/
def c6args : DRArgs := {
  udt := .str (chars "x")
  data := .pynone
  last_modified := 0
  data_uri := some (chars "s3://bucket/payload")
  mime_type := some (chars "text/plain")
  domain_types := .dlist []
  numerical_format := some (chars "uint8")
  bit_depth := some 8
  extents := some [1]
  sha256 := .sbytes [7]
}

/-- As `c6args` but with no URI either. -/
def c6argsNoUri : DRArgs := { c6args with data_uri := Option.none }

/-- Builder configuration with one registered custom field `pmt_a` and one
registered discard field `labelled`. -/
def c9cfg : BuilderCfg := {
  dataRecs := [sampleRec 0]
  annoRecs := [sampleAnno 1]
  customFields := [chars "pmt_a"]
  discardFields := [chars "labelled"]
}

/-- A valid DATA deposit file whose catalog holds one Group Key. -/
def c8good : PFile := mkDataPFile (2 :: List.replicate 20 7) []

/-- A deposit file with an unrecognised `data_type` value. -/
def c8bad : PFile := {
  dataType := some (chars "SOMETHING_ELSE")
  contains := Option.none
  references := Option.none
  rowGroups := []
}

/-- A deposit file with no `data_type` metadata at all. -/
def c8noType : PFile := {
  dataType := Option.none
  contains := Option.none
  references := Option.none
  rowGroups := []
}

/-- The Compact-Key body (digests and timestamp bytes) that `binary_udt`
derives under the witness digest `Hd` from the Canonical Name
`udt1__v__m__s__5`. -/
def c3body : Bytes := [4, 5, 6, 7, 8, 9, 1, 2, 3, 4, 5, 6, 7, 8, 0, 0, 0, 0, 0, 5]

/-- Builder configuration with both providers populated and no discard
fields registered. -/
def bothCfg (dR : List DRec) (aR : List ARec) (cF : List (List Char)) : BuilderCfg :=
  { dataRecs := dR, annoRecs := aR, customFields := cF, discardFields := [] }

/-- Builder configuration of the shared-catalog scenario: two data records
and two annotation records (one annotation sharing a group with a data
record), nothing else registered. -/
def c10cfg : BuilderCfg := {
  dataRecs := [sampleRec 0, sampleRec 1]
  annoRecs := [sampleAnno 2, sampleAnno 0]
}

/-! Theorems. -/

theorem take20_split (t : Bytes) :
    t.take 6 ++ ((t.drop 6).take 8 ++ (t.drop 14).take 6) = t.take 20 := by
  have h1 : t.take 20 = t.take 6 ++ (t.drop 6).take 14 := List.take_add t 6 14
  have h2 : (t.drop 6).take 14 = (t.drop 6).take 8 ++ ((t.drop 6).drop 8).take 6 :=
    List.take_add (t.drop 6) 8 6
  rw [h1, h2, List.drop_drop]

/-- C2: `toGroupKey` (small_udt) returns tag-2 input unchanged; on a tag-3
29-byte Item Key it returns the 21-byte prefix with the tag byte set to 2
(instance digest dropped); on any other tag byte it fails with the
UnsupportedTag error; and it is idempotent on every Compact Key whose tag
byte is 2 or 3. -/
theorem c2_group_key (H : List Char → Bytes) (k : Bytes) :
    (k.head? = some 2 → small_udt H (.bin k) = .ok (.bin k)) ∧
    (k.head? = some 3 → k.length = 29 →
      small_udt H (.bin k) = .ok (.bin (2 :: k.tail.take 20)) ∧
      (2 :: k.tail.take 20).length = 21) ∧
    (∀ t, k.head? = some t → t ≠ 2 → t ≠ 3 →
      small_udt H (.bin k) = .error .unsupportedTag) ∧
    ((k.head? = some 2 ∨ k.head? = some 3) →
      (small_udt H (.bin k)).bind (small_udt H) = small_udt H (.bin k)) := by
  refine ⟨?_, ?_, ?_, ?_⟩
  · intro h
    cases k with
    | nil => simp at h
    | cons a t =>
      simp at h
      subst h
      rfl
  · intro h hl
    cases k with
    | nil => simp at h
    | cons a t =>
      simp at h
      subst h
      constructor
      · have hdef : small_udt H (.bin (3 :: t)) =
            .ok (.bin (2 :: (t.take 6 ++ ((t.drop 6).take 8 ++ (t.drop 14).take 6)))) := rfl
        rw [hdef, take20_split]
        simp
      · simp at hl
        simp [List.length_take, hl]
  · intro t h h2 h3
    cases k with
    | nil => simp at h
    | cons a rest =>
      simp at h
      subst h
      unfold small_udt
      simp only [List.head?_cons]
  · intro h
    cases k with
    | nil => simp at h
    | cons a t =>
      rcases h with h | h
      · simp at h
        subst h
        rfl
      · simp at h
        subst h
        rfl

theorem c2_witness :
    small_udt Hd (.bin (sampleKey 0)) = .ok (.bin (2 :: (sampleKey 0).tail.take 20)) ∧
    small_udt Hd (.bin [5, 0]) = .error .unsupportedTag :=
  ⟨((c2_group_key Hd (sampleKey 0)).2.1 (by decide) (by decide)).1,
   (c2_group_key Hd [5, 0]).2.2.1 5 rfl (by decide) (by decide)⟩

/-- C5: the spec claims a build with an empty data source and a non-empty
annotation source succeeds and writes the annotation file, and that a build
with every source empty succeeds with no outputs. The code instead raises
UnboundLocalError in the first case (deposit_builder.py line 202 reads
`data_size_approx_kb`, assigned only inside the data section) and
FileNotFoundError in the second (line 316 opens both output locations even
though neither file was written). This theorem evaluates the build at both
failing inputs. -/
theorem c5_empty_sources :
    (build Hd c5cfgAnnoOnly (Option.none, Option.none)).result = .error .unboundLocal ∧
    (build Hd c5cfgAnnoOnly (Option.none, Option.none)).annoFile = Option.none ∧
    (build Hd c5cfgEmpty (Option.none, Option.none)).result = .error .fileNotFound ∧
    (build Hd c5cfgEmpty (Option.none, Option.none)).dataFile = Option.none ∧
    (build Hd c5cfgEmpty (Option.none, Option.none)).annoFile = Option.none := by
  refine ⟨rfl, rfl, rfl, rfl, rfl⟩

/-- C6: the spec claims `DataRecord(data=None, data_uri=<uri>)` succeeds and
`DataRecord(data=None, data_uri=None)` fails with MissingPayload. The code's
payload check (records.py line 52) reads `self.data_uri` before line 58
assigns it, so BOTH constructions raise AttributeError: the non-null-URI
construction does not succeed, and the MissingPayload raise at line 53 is
unreachable. This theorem evaluates the constructor at both inputs. -/
theorem c6_payload_check :
    dataRecordInit Hd c6args = .error .attributeError ∧
    dataRecordInit Hd c6argsNoUri = .error .attributeError ∧
    dataRecordInit Hd c6argsNoUri ≠ .error .missingPayload := by
  refine ⟨rfl, rfl, ?_⟩
  rw [show dataRecordInit Hd c6argsNoUri = .error .attributeError from rfl]
  simp

/-- C7: on any input string carrying neither the Canonical-Name marker
`udt1__` nor the Compact-Hex marker `udt1_`, `binary_udt` fails without
returning a value — but via the accidental NameError of udt.py line 72
(`return udt` references an undefined name), not a deliberate
MalformedIdentifier error. -/
theorem c7_unrecognised_marker (s : List Char)
    (h1 : udt1DD.isPrefixOf s = false) (h2 : udt1D.isPrefixOf s = false)
    (H : List Char → Bytes) :
    binary_udt H (.str s) = .error .nameError := by
  simp [binary_udt, h1, h2]

theorem c7_witness :
    binary_udt Hd (.str (chars "foo")) = .error .nameError :=
  c7_unrecognised_marker (chars "foo") (by decide) (by decide) Hd

/-- C9: the spec claims one boolean column named `discard_field_<d>` per
registered discard field `d`. deposit_builder.py line 221 instead names every
discard column after `field_def[0]` — the LAST registered custom field — so
with custom field `pmt_a` and discard field `labelled` the schema gets
`discard_field_pmt_a` and lacks `discard_field_labelled`, while the batch
dict (line 241) uses the correct name; `from_pydict` therefore rejects the
batch and the build fails. The per-row values the dict would carry are
`True` for a discarded field and `None` otherwise. -/
theorem c9_discard_columns :
    annotationSchemaNames [chars "pmt_a"] [chars "labelled"] =
      .ok (annotationBaseCols ++ [chars "field_pmt_a", chars "discard_field_pmt_a"]) ∧
    chars "discard_field_labelled" ∉
      (annotationBaseCols ++ [chars "field_pmt_a", chars "discard_field_pmt_a"]) ∧
    annotationDictKeys [chars "pmt_a"] [chars "labelled"] =
      annotationBaseCols ++ [chars "field_pmt_a", chars "discard_field_labelled"] ∧
    (build Hd c9cfg (Option.none, Option.none)).result = .error .schemaMismatch ∧
    discardColVals (chars "labelled") [sampleAnno 1] = [some true] := by
  refine ⟨by decide, by decide, by decide, rfl, by decide⟩

theorem sdfStep_noType (st : DepositState) (i : Nat) (f : PFile)
    (h : f.dataType = Option.none) : sdfStep st i f = .error .keyError := by
  unfold sdfStep
  rw [h]
  rfl

theorem sdfStep_badType (st : DepositState) (i : Nat) (f : PFile) (t : List Char)
    (ht : f.dataType = some t) (h2 : t ≠ dataV1) (h3 : t ≠ annoV1) :
    sdfStep st i f = .error .unrecognisedDepositFile := by
  unfold sdfStep
  rw [ht]
  simp only [if_neg h2, if_neg h3]
  rfl

theorem sdfStep_valid (st : DepositState) (i : Nat) (f : PFile)
    (h : ValidPF f) : ∃ st', sdfStep st i f = .ok st' := by
  rcases h with ⟨hd, hc⟩ | ⟨hd, hc⟩
  · obtain ⟨s, hs⟩ := Option.isSome_iff_exists.mp hc
    unfold sdfStep
    rw [hd, hs]
    exact ⟨_, rfl⟩
  · obtain ⟨s, hs⟩ := Option.isSome_iff_exists.mp hc
    unfold sdfStep
    rw [hd, hs]
    exact ⟨_, rfl⟩

theorem sdfGo_ok_append (good : List PFile) :
    ∀ (st : DepositState) (i : Nat) (more : List PFile),
      (∀ f ∈ good, ValidPF f) →
      sdfGo st i (good ++ more) =
        sdfGo (sdfGo st i good).1 (i + good.length) more ∧
      (sdfGo st i good).2 = Option.none := by
  induction good with
  | nil => intro st i more _; simp [sdfGo]
  | cons f fs ih =>
    intro st i more hv
    have hf := hv f (by simp)
    obtain ⟨st', hst'⟩ := sdfStep_valid st i f hf
    have hrest := ih st' (i + 1) more (fun g hg => hv g (by simp [hg]))
    have hidx : i + (f :: fs).length = (i + 1) + fs.length := by simp; omega
    constructor
    · show sdfGo st i (f :: (fs ++ more)) = _
      rw [show sdfGo st i (f :: (fs ++ more)) =
          (match sdfStep st i f with
           | .error e => (st, some e)
           | .ok st2 => sdfGo st2 (i + 1) (fs ++ more)) from rfl]
      rw [hst']
      rw [show sdfGo st i (f :: fs) =
          (match sdfStep st i f with
           | .error e => (st, some e)
           | .ok st2 => sdfGo st2 (i + 1) fs) from rfl]
      rw [hst', hidx]
      exact hrest.1
    · rw [show sdfGo st i (f :: fs) =
          (match sdfStep st i f with
           | .error e => (st, some e)
           | .ok st2 => sdfGo st2 (i + 1) fs) from rfl]
      rw [hst']
      exact hrest.2

/-- C8 counterexample: opening the batch `[valid DATA file, file with an
unrecognised data_type]` fails with the UnrecognizedDepositFile error, yet
the Deposit is NOT left as if nothing had been opened: the first file stays
registered and the catalog map is non-empty. A file with absent `data_type`
metadata fails with KeyError, not with the UnrecognizedDepositFile error. -/
theorem c8_counterexample :
    (set_deposit_files initDeposit [c8good, c8bad]).2 =
      some .unrecognisedDepositFile ∧
    (set_deposit_files initDeposit [c8good, c8bad]).1.pfiles = [c8good] ∧
    (set_deposit_files initDeposit [c8good, c8bad]).1.dataIdx = [0] ∧
    (set_deposit_files initDeposit [c8good, c8bad]).1.udtMap ≠ [] ∧
    (set_deposit_files initDeposit [c8noType]).2 = some .keyError := by
  refine ⟨rfl, rfl, rfl, by decide, rfl⟩

/-- C8 amended: if any file of the batch has an unrecognised `data_type`
value the call raises the UnrecognizedDepositFile error, and if the metadata
key is absent it raises KeyError instead; in both cases every valid file
earlier in the batch REMAINS registered — the Deposit's state after the
failed call is exactly the state reached after processing the good prefix
(open is not all-or-nothing). -/
theorem c8_amended_open_failure (good : List PFile) (bad : PFile)
    (rest : List PFile) (hv : ∀ f ∈ good, ValidPF f) :
    (bad.dataType = Option.none →
      set_deposit_files initDeposit (good ++ bad :: rest) =
        ((sdfGo initDeposit 0 good).1, some .keyError)) ∧
    (∀ t, bad.dataType = some t → t ≠ dataV1 → t ≠ annoV1 →
      set_deposit_files initDeposit (good ++ bad :: rest) =
        ((sdfGo initDeposit 0 good).1, some .unrecognisedDepositFile)) := by
  obtain ⟨happ, _⟩ := sdfGo_ok_append good initDeposit 0 (bad :: rest) hv
  constructor
  · intro hnone
    show sdfGo initDeposit 0 (good ++ bad :: rest) = _
    rw [happ]
    rw [show sdfGo (sdfGo initDeposit 0 good).1 (0 + good.length) (bad :: rest) =
        (match sdfStep (sdfGo initDeposit 0 good).1 (0 + good.length) bad with
         | .error e => ((sdfGo initDeposit 0 good).1, some e)
         | .ok st2 => sdfGo st2 (0 + good.length + 1) rest) from rfl]
    rw [sdfStep_noType _ _ _ hnone]
  · intro t ht h2 h3
    show sdfGo initDeposit 0 (good ++ bad :: rest) = _
    rw [happ]
    rw [show sdfGo (sdfGo initDeposit 0 good).1 (0 + good.length) (bad :: rest) =
        (match sdfStep (sdfGo initDeposit 0 good).1 (0 + good.length) bad with
         | .error e => ((sdfGo initDeposit 0 good).1, some e)
         | .ok st2 => sdfGo st2 (0 + good.length + 1) rest) from rfl]
    rw [sdfStep_badType _ _ _ t ht h2 h3]

theorem c8_witness :
    set_deposit_files initDeposit ([c8good] ++ c8bad :: []) =
      ((sdfGo initDeposit 0 [c8good]).1, some .unrecognisedDepositFile) :=
  (c8_amended_open_failure [c8good] c8bad [] (by decide)).2
    (chars "SOMETHING_ELSE") rfl (by decide) (by decide)

theorem smallBytes_tag (H : List Char → Bytes) (k : Bytes)
    (h : k.head? = some 2 ∨ k.head? = some 3) :
    smallBytes H k = .ok (gkey k) := by
  cases k with
  | nil => simp at h
  | cons a t =>
    rcases h with h | h <;> simp at h <;> subst h <;> rfl

theorem gkey_len (k : Bytes) (h : WfKey k) : (gkey k).length = 21 := by
  obtain ⟨⟨h2, hl⟩ | ⟨h3, hl⟩, _⟩ := h
  · cases k with
    | nil => simp at h2
    | cons a t =>
      simp at h2
      subst h2
      simpa [gkey] using hl
  · cases k with
    | nil => simp at h3
    | cons a t =>
      simp at h3
      subst h3
      simp at hl
      simp [gkey, List.length_take, List.length_drop, hl]

theorem catAdd_ok (H : List Char → Bytes) (c : List Bytes) (ks : List Bytes)
    (h : ∀ k ∈ ks, k.head? = some 2 ∨ k.head? = some 3) :
    catAdd H true c ks = .ok ((ks.map gkey).foldl catInsert c) := by
  induction ks generalizing c with
  | nil => rfl
  | cons k rest ih =>
    have hk := smallBytes_tag H k (h k (by simp))
    show (if true then _ else _) = _
    rw [if_pos rfl]
    show (smallBytes H k >>= fun s => catAdd H true (catInsert c s) rest) = _
    rw [hk]
    show catAdd H true (catInsert c (gkey k)) rest = _
    rw [ih (catInsert c (gkey k)) (fun g hg => h g (by simp [hg]))]
    rfl

theorem mem_catInsert (c : List Bytes) (x y : Bytes) :
    x ∈ catInsert c y ↔ x ∈ c ∨ x = y := by
  unfold catInsert
  by_cases h : c.contains y
  · rw [if_pos h]
    simp at h
    constructor
    · exact Or.inl
    · rintro (hx | rfl)
      · exact hx
      · exact h
  · rw [if_neg h]
    simp

theorem mem_foldl_catInsert (l : List Bytes) :
    ∀ (c : List Bytes) (x : Bytes), x ∈ l.foldl catInsert c ↔ x ∈ c ∨ x ∈ l := by
  induction l with
  | nil => simp
  | cons y rest ih =>
    intro c x
    show x ∈ rest.foldl catInsert (catInsert c y) ↔ _
    rw [ih (catInsert c y) x, mem_catInsert]
    simp
    tauto

theorem nodup_catInsert (c : List Bytes) (y : Bytes) (h : c.Nodup) :
    (catInsert c y).Nodup := by
  unfold catInsert
  by_cases hc : c.contains y
  · rw [if_pos hc]; exact h
  · rw [if_neg hc]
    simp at hc
    refine List.Nodup.append h (List.nodup_singleton y) ?_
    intro a ha hb
    simp at hb
    subst hb
    exact hc ha

theorem nodup_foldl_catInsert (l : List Bytes) :
    ∀ c : List Bytes, c.Nodup → (l.foldl catInsert c).Nodup := by
  induction l with
  | nil => intro c h; exact h
  | cons y rest ih =>
    intro c h
    exact ih (catInsert c y) (nodup_catInsert c y h)

theorem chunks21_flatten (l : List Bytes) (h : ∀ x ∈ l, x.length = 21) :
    chunks21 l.flatten = l := by
  induction l with
  | nil => rfl
  | cons x rest ih =>
    have hx : x.length = 21 := h x (by simp)
    have hrest := ih (fun y hy => h y (by simp [hy]))
    show chunks21 (x ++ rest.flatten) = x :: rest
    unfold chunks21
    have hlen : (x ++ rest.flatten).length = rest.flatten.length + 21 := by
      simp [hx]; omega
    have hcount : ((x ++ rest.flatten).length + 20) / 21 =
        (rest.flatten.length + 20) / 21 + 1 := by
      rw [hlen]
      rw [show rest.flatten.length + 21 + 20 = (rest.flatten.length + 20) + 21 by omega]
      exact Nat.add_div_right _ (by norm_num)
    rw [hcount, List.range_succ_eq_map]
    simp only [List.map_cons, List.map_map]
    congr 1
    · show ((x ++ rest.flatten).drop (21 * 0)).take 21 = x
      simp only [Nat.mul_zero, List.drop_zero]
      rw [← hx, List.take_left]
    · have hmap : List.map
          ((fun i => ((x ++ rest.flatten).drop (21 * i)).take 21) ∘ Nat.succ)
          (List.range ((rest.flatten.length + 20) / 21)) = chunks21 rest.flatten := by
        unfold chunks21
        apply List.map_congr_left
        intro i _
        show ((x ++ rest.flatten).drop (21 * (i + 1))).take 21 =
          (rest.flatten.drop (21 * i)).take 21
        have h21 : 21 * (i + 1) = 21 * i + 21 := by ring
        rw [h21]
        congr 1
        rw [Nat.add_comm (21 * i) 21, ← List.drop_drop]
        congr 1
        rw [← hx, List.drop_left]
      rw [hmap, hrest]

theorem foldl_mapAdd_fresh (cat : List Bytes) :
    ∀ m0 : List (Bytes × List Nat),
      (∀ k ∈ cat, ¬ m0.any (fun e => e.1 == k)) → cat.Nodup →
      cat.foldl (fun m k => mapAdd m k 0) m0 = m0 ++ cat.map (fun k => (k, [0])) := by
  induction cat with
  | nil => simp
  | cons k rest ih =>
    intro m0 hfresh hnd
    show rest.foldl (fun m k => mapAdd m k 0) (mapAdd m0 k 0) = _
    have hk : mapAdd m0 k 0 = m0 ++ [(k, [0])] := by
      unfold mapAdd
      rw [if_neg]
      intro hc
      exact hfresh k (by simp) hc
    rw [hk]
    rw [ih (m0 ++ [(k, [0])]) ?_ (List.Nodup.of_cons hnd)]
    · simp
    · intro g hg
      simp only [List.any_append, Bool.or_eq_true, List.any_cons, List.any_nil]
      push_neg
      refine ⟨fun h => hfresh g (by simp [hg]) h, ?_⟩
      simp
      intro hgk
      rw [← hgk] at hg
      exact (List.nodup_cons.mp hnd).1 hg

theorem mapFind_constMap (cat : List Bytes) (k : Bytes) :
    mapFind (cat.map (fun g => (g, [0]))) k =
      if k ∈ cat then some [0] else Option.none := by
  induction cat with
  | nil => simp [mapFind]
  | cons g rest ih =>
    by_cases hg : g = k
    · subst hg
      simp [mapFind, List.find?]
    · unfold mapFind at ih ⊢
      simp only [List.map_cons, List.find?]
      rw [show ((g, [(0 : Nat)]).1 == k) = false by
        simp
        exact hg]
      rw [ih]
      by_cases hm : k ∈ rest
      · rw [if_pos hm, if_pos (by simp [hm])]
      · rw [if_neg hm, if_neg ?_]
        simp [hm]
        exact fun h => hg h.symm

theorem pullChunks_single {α : Type} (xs : List α)
    (h : xs.length < dataBatchSize) : pullChunks xs = [xs] := by
  unfold pullChunks
  rw [Nat.div_eq_of_lt h]
  rw [show List.range (0 + 1) = [0] from rfl]
  simp only [List.map_cons, List.map_nil, Nat.mul_zero, List.drop_zero]
  rw [List.take_of_length_le (Nat.le_of_lt h)]

theorem gdrScanRows_found (H : List Char → Bytes) (D : List Char → Except PyErr Nat)
    (uarg : PyVal) (budt : Bytes) (rows : List PRow)
    (hex : ∃ row ∈ rows, row.udt_bin = budt)
    (hok : ∀ row ∈ rows, row.udt_bin = budt →
      (materialize H D row).toOption.map (fun s => s.bin_udt) = some row.udt_bin) :
    ∃ rep, gdrScanRows H D false uarg budt rows = .ok (some rep) ∧
      rep.bin_udt = budt := by
  induction rows with
  | nil =>
    obtain ⟨row, hm, _⟩ := hex
    cases hm
  | cons row rest ih =>
    by_cases hb : row.udt_bin = budt
    · have hmk := hok row (by simp) hb
      cases hmat : materialize H D row with
      | error e => rw [hmat] at hmk; simp [Except.toOption] at hmk
      | ok st' =>
        rw [hmat] at hmk
        simp [Except.toOption] at hmk
        refine ⟨st', ?_, by rw [hmk, hb]⟩
        rw [show gdrScanRows H D false uarg budt (row :: rest) =
            (if row.udt_bin = budt then
              (if false = false ∨ uarg = .str row.udt then
                (materialize H D row).map some
              else gdrScanRows H D false uarg budt rest)
            else gdrScanRows H D false uarg budt rest) from rfl]
        rw [if_pos hb, if_pos (Or.inl rfl), hmat]
        rfl
    · rw [show gdrScanRows H D false uarg budt (row :: rest) =
          (if row.udt_bin = budt then
            (if false = false ∨ uarg = .str row.udt then
              (materialize H D row).map some
            else gdrScanRows H D false uarg budt rest)
          else gdrScanRows H D false uarg budt rest) from rfl]
      rw [if_neg hb]
      apply ih
      · obtain ⟨row0, hm, heq⟩ := hex
        rcases List.mem_cons.mp hm with rfl | hm0
        · exact absurd heq hb
        · exact ⟨row0, hm0, heq⟩
      · intro g hg hgb
        exact hok g (by simp [hg]) hgb

theorem build_dataOnly (H : List Char → Bytes) (recs : List DRec)
    (c : List Bytes) (hne : recs.isEmpty = false)
    (hcat : catAdd H true [] (recs.map (·.bin_udt)) = .ok c) :
    build H { dataRecs := recs, annoRecs := [] } (Option.none, Option.none) =
      ⟨some (mkDataFile ((pullChunks recs).map (fun b => b.map dataRowOf)) c),
       Option.none, (pullChunks recs).map (fun b => b.map dataRowOf), 0,
       .error .fileNotFound⟩ := by
  unfold build
  dsimp only
  simp only [Option.isNone_none, Option.getD_none]
  rw [show dataPhase H true [] recs =
      .ok ((pullChunks recs).map (fun b => b.map dataRowOf), c) from by
    unfold dataPhase
    rw [hne]
    rw [if_neg (by simp)]
    rw [hcat]
    rfl]
  dsimp only
  rw [show annoPhase H true c { dataRecs := recs, annoRecs := [] } =
      .ok (0, c) from rfl]
  dsimp only
  rw [hne]
  rfl

theorem exbind_ok {ε α β : Type} (a : α) (f : α → Except ε β) :
    (Except.ok a : Except ε α).bind f = f a := rfl

theorem exbind_ok2 {ε α β : Type} (a : α) (f : α → Except ε β) :
    ((Except.ok a : Except ε α) >>= f) = f a := rfl

theorem open_single_data (batches : List (List PRow)) (cat : List Bytes) :
    set_deposit_files initDeposit [mkDataFile batches cat] =
      ({ pfiles := [mkDataFile batches cat], dataIdx := [0], annoIdx := [],
         udtMap := (chunks21 cat.flatten).foldl (fun m k => mapAdd m k 0) [] },
       Option.none) := rfl

set_option maxRecDepth 100000 in
/-- C4 counterexample: a builder fed exactly 130 data records writes ONE
batch to the data file, not at least two — 130 records fit far inside the
single 2048-record batch that the 65536/32 computation targets. -/
theorem c4_counterexample :
    (build Hd c4cfg (Option.none, Option.none)).dataBatches.length = 1 ∧
    ¬ 2 ≤ (build Hd c4cfg (Option.none, Option.none)).dataBatches.length := by
  constructor
  · rfl
  · intro hc
    rw [show (build Hd c4cfg (Option.none, Option.none)).dataBatches.length = 1
      from rfl] at hc
    omega

/-- C4 amended: a builder whose data source yields 130 Data Records (well
formed and materializable) writes exactly ONE batch — the whole source fits
in a single 2048-record batch (`65536 / 32`); the finished data file's
catalog metadata, decoded into 21-byte entries, is exactly the set of
distinct Group Keys of the 130 records; and a Deposit opened on that one
file answers `get_data_record` successfully for every one of the 130
Compact Keys, returning a record carrying the queried key. -/
theorem c4_amended_round_trip (H : List Char → Bytes)
    (D : List Char → Except PyErr Nat) (recs : List DRec)
    (h130 : recs.length = 130)
    (hwf : ∀ r ∈ recs, WfKey r.bin_udt)
    (hmat : ∀ r ∈ recs,
      (materialize H D (dataRowOf r)).toOption.map (fun s => s.bin_udt) =
        some r.bin_udt) :
    ∃ df cat,
      (build H { dataRecs := recs, annoRecs := [] }
        (Option.none, Option.none)).dataBatches = [recs.map dataRowOf] ∧
      (build H { dataRecs := recs, annoRecs := [] }
        (Option.none, Option.none)).dataFile = some df ∧
      df.contains = some cat.flatten ∧
      chunks21 cat.flatten = cat ∧
      cat.toFinset = (recs.map (fun r => gkey r.bin_udt)).toFinset ∧
      (set_deposit_files initDeposit [df]).2 = Option.none ∧
      (∀ r ∈ recs, ∃ rep,
        get_data_record H D (set_deposit_files initDeposit [df]).1
          (.bin r.bin_udt) false = .ok (some rep) ∧
        rep.bin_udt = r.bin_udt) := by
  have htags : ∀ k ∈ recs.map (·.bin_udt), k.head? = some 2 ∨ k.head? = some 3 := by
    intro k hk
    simp only [List.mem_map] at hk
    obtain ⟨r, hr, rfl⟩ := hk
    rcases (hwf r hr).1 with ⟨h2, _⟩ | ⟨h3, _⟩
    · exact Or.inl h2
    · exact Or.inr h3
  have hcat := catAdd_ok H [] (recs.map (·.bin_udt)) htags
  have hne : recs.isEmpty = false := by
    cases recs with
    | nil => simp at h130
    | cons a t => rfl
  have hpull : pullChunks recs = [recs] :=
    pullChunks_single recs (by rw [h130]; decide)
  have hbuild := build_dataOnly H recs _ hne hcat
  rw [hpull] at hbuild
  simp only [List.map_cons, List.map_nil] at hbuild
  set gkl : List Bytes := (recs.map (·.bin_udt)).map gkey with hgkl
  set cat : List Bytes := gkl.foldl catInsert [] with hcatdef
  have hlen21 : ∀ x ∈ cat, x.length = 21 := by
    intro x hx
    rcases (mem_foldl_catInsert gkl [] x).mp hx with h0 | hgk
    · cases h0
    · rw [hgkl] at hgk
      simp only [List.mem_map] at hgk
      obtain ⟨k, ⟨r, hr, rfl⟩, rfl⟩ := hgk
      exact gkey_len _ (hwf r hr)
  have hnd : cat.Nodup := nodup_foldl_catInsert gkl [] List.nodup_nil
  have hchunks : chunks21 cat.flatten = cat := chunks21_flatten cat hlen21
  set df : PFile := mkDataFile [recs.map dataRowOf] cat with hdf
  have hst : (set_deposit_files initDeposit [df]).1 =
      ⟨[df], [0], [], cat.map (fun k => (k, [0]))⟩ := by
    rw [show (set_deposit_files initDeposit [df]).1 =
        ({ pfiles := [df], dataIdx := [0], annoIdx := [],
           udtMap := (chunks21 cat.flatten).foldl (fun m k => mapAdd m k 0) [] } :
         DepositState) from rfl]
    rw [hchunks, foldl_mapAdd_fresh cat [] (fun k _ => by simp) hnd]
    rw [List.nil_append]
  refine ⟨df, cat, ?_, ?_, rfl, hchunks, ?_, rfl, ?_⟩
  · rw [hbuild]
  · rw [hbuild]
  · apply Finset.ext
    intro x
    simp only [List.mem_toFinset]
    rw [mem_foldl_catInsert gkl [] x]
    rw [hgkl]
    simp only [List.mem_map, List.not_mem_nil, false_or]
    constructor
    · rintro ⟨k, ⟨r, hr, rfl⟩, rfl⟩
      exact ⟨r, hr, rfl⟩
    · rintro ⟨r, hr, rfl⟩
      exact ⟨r.bin_udt, ⟨r, hr, rfl⟩, rfl⟩
  · intro r hr
    have htag : r.bin_udt.head? = some 2 ∨ r.bin_udt.head? = some 3 :=
      htags r.bin_udt (List.mem_map_of_mem _ hr)
    have hkmem : gkey r.bin_udt ∈ cat := by
      apply (mem_foldl_catInsert gkl [] _).mpr
      right
      rw [hgkl]
      exact List.mem_map_of_mem gkey (List.mem_map_of_mem _ hr)
    rw [hst]
    set stRec : DepositState := ⟨[df], [0], [], cat.map (fun k => (k, [0]))⟩ with hstRec
    have href : get_referencing_indicies H stRec (.bin r.bin_udt) = .ok [0] := by
      rw [show get_referencing_indicies H stRec (.bin r.bin_udt) =
          (smallBytes H r.bin_udt).bind (fun sb =>
            match mapFind stRec.udtMap sb with
            | some l => Except.ok l
            | Option.none => Except.ok []) from rfl]
      rw [smallBytes_tag H r.bin_udt htag, exbind_ok]
      rw [show stRec.udtMap = cat.map (fun k => (k, [0])) from rfl]
      rw [mapFind_constMap cat (gkey r.bin_udt), if_pos hkmem]
    have hrows : df.rowGroups.flatten = recs.map dataRowOf := by
      rw [show df.rowGroups = [recs.map dataRowOf] from rfl]
      simp
    obtain ⟨rep, hscan, hrep⟩ := gdrScanRows_found H D (.bin r.bin_udt)
      r.bin_udt (recs.map dataRowOf)
      ⟨dataRowOf r, List.mem_map_of_mem _ hr, rfl⟩
      (by
        intro row hrow hbeq
        simp only [List.mem_map] at hrow
        obtain ⟨r', hr', rfl⟩ := hrow
        exact hmat r' hr')
    refine ⟨rep, ?_, hrep⟩
    rw [show get_data_record H D stRec (.bin r.bin_udt) false =
        (get_referencing_indicies H stRec (.bin r.bin_udt)).bind
          (fun pfis => gdrFiles H D stRec false (.bin r.bin_udt) r.bin_udt pfis)
      from rfl]
    rw [href, exbind_ok]
    rw [show gdrFiles H D stRec false (.bin r.bin_udt) r.bin_udt [0] =
        (gdrScanRows H D false (.bin r.bin_udt) r.bin_udt
          df.rowGroups.flatten).bind (fun res =>
            match res with
            | some x => Except.ok (some x)
            | Option.none => gdrFiles H D stRec false (.bin r.bin_udt) r.bin_udt [])
      from rfl]
    rw [hrows, hscan, exbind_ok]

set_option maxRecDepth 1000000 in
theorem c4_witness :
    sampleRecs.length = 130 ∧
    (∃ df cat,
      (build Hd { dataRecs := sampleRecs, annoRecs := [] }
        (Option.none, Option.none)).dataBatches = [sampleRecs.map dataRowOf] ∧
      (build Hd { dataRecs := sampleRecs, annoRecs := [] }
        (Option.none, Option.none)).dataFile = some df ∧
      df.contains = some cat.flatten ∧
      chunks21 cat.flatten = cat ∧
      cat.toFinset = (sampleRecs.map (fun r => gkey r.bin_udt)).toFinset ∧
      (set_deposit_files initDeposit [df]).2 = Option.none ∧
      (∀ r ∈ sampleRecs, ∃ rep,
        get_data_record Hd Dd (set_deposit_files initDeposit [df]).1
          (.bin r.bin_udt) false = .ok (some rep) ∧
        rep.bin_udt = r.bin_udt)) :=
  ⟨rfl, c4_amended_round_trip Hd Dd sampleRecs rfl (by decide) (by decide)⟩

theorem build_both (H : List Char → Bytes) (dR : List DRec) (aR : List ARec)
    (cF : List (List Char)) (c1 c2 : List Bytes)
    (hdne : dR.isEmpty = false) (hane : aR.isEmpty = false)
    (hc1 : catAdd H true [] (dR.map (·.bin_udt)) = .ok c1)
    (hc2 : catAdd H true c1 (aR.map (·.bin_udt)) = .ok c2) :
    (build H (bothCfg dR aR cF) (Option.none, Option.none)).dataFile =
      some (mkDataFile ((pullChunks dR).map (fun b => b.map dataRowOf)) c2) ∧
    (build H (bothCfg dR aR cF) (Option.none, Option.none)).annoFile =
      some (mkAnnoFile c2) := by
  unfold build bothCfg
  dsimp only
  simp only [Option.isNone_none, Option.getD_none]
  rw [show dataPhase H true [] dR =
      .ok ((pullChunks dR).map (fun b => b.map dataRowOf), c1) from by
    unfold dataPhase
    rw [hdne]
    rw [if_neg (by simp)]
    rw [hc1]
    rfl]
  dsimp only
  rw [show annoPhase H true c1 { dataRecs := dR, annoRecs := aR, customFields := cF, discardFields := [], explicitCat := Option.none } = .ok ((pullChunks aR).length, c2) from by
    unfold annoPhase
    dsimp only
    rw [hane, hdne]
    rw [if_neg (by simp), if_neg (by simp)]
    rw [show annotationSchemaNames cF [] =
        .ok (annotationBaseCols ++ cF.map (fun f => chars "field_" ++ f))
      from rfl]
    rw [exbind_ok2]
    rw [hc2, exbind_ok2]
    rw [if_pos (by simp [annotationDictKeys])]]
  dsimp only
  rw [hdne, hane]
  exact ⟨rfl, rfl⟩

/-- C10: with no explicit catalog, the single running catalog set accumulates
Group Keys from data records AND annotation records together, and `build()`
stamps the data file's `contains_udts` and the annotation file's
`references_udts` with the IDENTICAL byte string — the concatenation of the
union of Group Keys over both record kinds, not per-kind catalogs. -/
theorem c10_shared_catalog (H : List Char → Bytes) (dR : List DRec)
    (aR : List ARec) (cF : List (List Char))
    (hdne : dR.isEmpty = false) (hane : aR.isEmpty = false)
    (hwfall : ∀ k ∈ dR.map (·.bin_udt) ++ aR.map (·.bin_udt), WfKey k) :
    ∃ df af cat,
      (build H (bothCfg dR aR cF) (Option.none, Option.none)).dataFile = some df ∧
      (build H (bothCfg dR aR cF) (Option.none, Option.none)).annoFile = some af ∧
      df.contains = some cat.flatten ∧
      af.references = some cat.flatten ∧
      chunks21 cat.flatten = cat ∧
      cat.toFinset =
        (((dR.map (·.bin_udt) ++ aR.map (·.bin_udt)).map gkey)).toFinset := by
  have htags : ∀ k ∈ dR.map (·.bin_udt) ++ aR.map (·.bin_udt),
      k.head? = some 2 ∨ k.head? = some 3 := by
    intro k hk
    rcases (hwfall k hk).1 with ⟨h2, _⟩ | ⟨h3, _⟩
    · exact Or.inl h2
    · exact Or.inr h3
  have hc1 := catAdd_ok H [] (dR.map (·.bin_udt))
    (fun k hk => htags k (List.mem_append_left _ hk))
  have hc2 := catAdd_ok H ((dR.map (·.bin_udt)).map gkey |>.foldl catInsert [])
    (aR.map (·.bin_udt)) (fun k hk => htags k (List.mem_append_right _ hk))
  set cat : List Bytes :=
    ((dR.map (·.bin_udt) ++ aR.map (·.bin_udt)).map gkey).foldl catInsert []
    with hcatdef
  have hcat2 : ((aR.map (·.bin_udt)).map gkey).foldl catInsert
      ((dR.map (·.bin_udt)).map gkey |>.foldl catInsert []) = cat := by
    rw [hcatdef, List.map_append, List.foldl_append]
  rw [hcat2] at hc2
  obtain ⟨hdf, haf⟩ := build_both H dR aR cF _ cat hdne hane hc1 hc2
  have hlen21 : ∀ x ∈ cat, x.length = 21 := by
    intro x hx
    rcases (mem_foldl_catInsert _ [] x).mp hx with h0 | hgk
    · cases h0
    · simp only [List.mem_map] at hgk
      obtain ⟨k, hk, rfl⟩ := hgk
      exact gkey_len _ (hwfall k hk)
  refine ⟨_, _, cat, hdf, haf, rfl, rfl, chunks21_flatten cat hlen21, ?_⟩
  apply Finset.ext
  intro x
  simp only [List.mem_toFinset]
  rw [mem_foldl_catInsert _ [] x]
  simp

theorem c10_witness :
    ∃ df af cat,
      (build Hd (bothCfg [sampleRec 0, sampleRec 1] [sampleAnno 2, sampleAnno 0] [])
        (Option.none, Option.none)).dataFile = some df ∧
      (build Hd (bothCfg [sampleRec 0, sampleRec 1] [sampleAnno 2, sampleAnno 0] [])
        (Option.none, Option.none)).annoFile = some af ∧
      df.contains = some cat.flatten ∧
      af.references = some cat.flatten ∧
      chunks21 cat.flatten = cat ∧
      cat.toFinset =
        ((([sampleRec 0, sampleRec 1].map (·.bin_udt) ++
          [sampleAnno 2, sampleAnno 0].map (·.bin_udt)).map gkey)).toFinset :=
  c10_shared_catalog Hd [sampleRec 0, sampleRec 1] [sampleAnno 2, sampleAnno 0]
    [] rfl rfl (by decide)

theorem chunks21_exact (x : Bytes) (hx : x.length = 21) : chunks21 x = [x] := by
  unfold chunks21
  rw [hx]
  rw [show (21 + 20) / 21 = 1 from rfl, show List.range 1 = [0] from rfl]
  simp only [List.map_cons, List.map_nil, Nat.mul_zero, List.drop_zero]
  rw [List.take_of_length_le (by omega)]

theorem isPrefixOf_self_append {α : Type} [BEq α] [LawfulBEq α] (l r : List α) :
    l.isPrefixOf (l ++ r) = true := by
  rw [List.isPrefixOf_iff_prefix]
  exact List.prefix_append l r

theorem gkey_item (body a : Bytes) (hb : body.length = 20) :
    gkey (3 :: (body ++ a)) = 2 :: body := by
  show 2 :: ((body ++ a).take 6 ++ (((body ++ a).drop 6).take 8 ++
    ((body ++ a).drop 14).take 6)) = 2 :: body
  rw [take20_split]
  rw [← hb, List.take_left]

theorem mapFind_single (k : Bytes) (v : List Nat) : mapFind [(k, v)] k = some v := by
  simp [mapFind, List.find?]

/-- C3: with Group Key `g` and Item Keys `i1`, `i2` derived from `g` with
different instance digests, (a) `toGroupKey` maps both Item Keys back to `g`
(so a catalog built only from them is the set containing `g`); (b) a
`lookupGroupOrItem` query for `g` over a DATA file holding rows for `g`,
`i1`, `i2` returns all three; and (c) over a file built from `i1`/`i2` only,
a query by a Canonical Name whose Compact Key is `g` still returns both —
because the catalog holds Group Keys and the row predicate is
`Compact Key = g` OR `Compact Key starts with g with tag byte | 1`. -/
theorem c3_group_or_item (H : List Char → Bytes) (body a1 a2 : Bytes)
    (sg s1 s2 n : List Char)
    (hb : body.length = 20) (ha1 : a1.length = 8) (ha2 : a2.length = 8)
    (hia : a1 ≠ a2)
    (hn : binary_udt H (.str n) = .ok (2 :: body)) :
    smallBytes H (3 :: (body ++ a1)) = .ok (2 :: body) ∧
    smallBytes H (3 :: (body ++ a2)) = .ok (2 :: body) ∧
    (set_deposit_files initDeposit [mkDataPFile (2 :: body)
      [mkRow sg (2 :: body), mkRow s1 (3 :: (body ++ a1)),
       mkRow s2 (3 :: (body ++ a2))]]).2 = Option.none ∧
    get_prefixed_udts H (set_deposit_files initDeposit [mkDataPFile (2 :: body)
      [mkRow sg (2 :: body), mkRow s1 (3 :: (body ++ a1)),
       mkRow s2 (3 :: (body ++ a2))]]).1
      (.bin (2 :: body)) false = .ok [sg, s1, s2] ∧
    (set_deposit_files initDeposit [mkDataPFile (2 :: body)
      [mkRow s1 (3 :: (body ++ a1)), mkRow s2 (3 :: (body ++ a2))]]).2 =
      Option.none ∧
    get_prefixed_udts H (set_deposit_files initDeposit [mkDataPFile (2 :: body)
      [mkRow s1 (3 :: (body ++ a1)), mkRow s2 (3 :: (body ++ a2))]]).1
      (.str n) false = .ok [s1, s2] := by
  have hglen : (2 :: body).length = 21 := by simp [hb]
  refine ⟨?_, ?_, rfl, ?_, rfl, ?_⟩
  · rw [smallBytes_tag H (3 :: (body ++ a1)) (by simp), gkey_item body a1 hb]
  · rw [smallBytes_tag H (3 :: (body ++ a2)) (by simp), gkey_item body a2 hb]
  · have hst : (set_deposit_files initDeposit [mkDataPFile (2 :: body)
        [mkRow sg (2 :: body), mkRow s1 (3 :: (body ++ a1)),
         mkRow s2 (3 :: (body ++ a2))]]).1 =
        ⟨[mkDataPFile (2 :: body)
          [mkRow sg (2 :: body), mkRow s1 (3 :: (body ++ a1)),
           mkRow s2 (3 :: (body ++ a2))]],
         [0], [], [((2 :: body), [0])]⟩ := by
      rw [show (set_deposit_files initDeposit [mkDataPFile (2 :: body)
        [mkRow sg (2 :: body), mkRow s1 (3 :: (body ++ a1)),
         mkRow s2 (3 :: (body ++ a2))]]).1 =
        ({ pfiles := [mkDataPFile (2 :: body)
            [mkRow sg (2 :: body), mkRow s1 (3 :: (body ++ a1)),
             mkRow s2 (3 :: (body ++ a2))]],
           dataIdx := [0], annoIdx := [],
           udtMap := (chunks21 (2 :: body)).foldl (fun m k => mapAdd m k 0) [] } :
         DepositState) from rfl]
      rw [chunks21_exact (2 :: body) hglen]
      rfl
    rw [hst]
    set f1 : PFile := mkDataPFile (2 :: body)
      [mkRow sg (2 :: body), mkRow s1 (3 :: (body ++ a1)),
       mkRow s2 (3 :: (body ++ a2))] with hf1
    set stR : DepositState := ⟨[f1], [0], [], [((2 :: body), [0])]⟩ with hstR
    have href : get_referencing_indicies H stR (.bin (2 :: body)) = .ok [0] := by
      rw [show get_referencing_indicies H stR (.bin (2 :: body)) =
          (smallBytes H (2 :: body)).bind (fun sb =>
            match mapFind stR.udtMap sb with
            | some l => Except.ok l
            | Option.none => Except.ok []) from rfl]
      rw [smallBytes_tag H (2 :: body) (by simp), exbind_ok]
      rw [show stR.udtMap = [((2 :: body), [0])] from rfl]
      rw [show gkey (2 :: body) = 2 :: body from rfl]
      rw [mapFind_single]
    rw [show get_prefixed_udts H stR (.bin (2 :: body)) false =
        (get_referencing_indicies H stR (.bin (2 :: body))).bind
          (fun pfis => gpuFiles stR false (.bin (2 :: body)) ((1 ||| 2) :: body)
            (2 :: body) pfis) from rfl]
    rw [href, exbind_ok]
    rw [show gpuFiles stR false (.bin (2 :: body)) ((1 ||| 2) :: body)
        (2 :: body) [0] =
        Except.ok (gpuRows false (.bin (2 :: body)) ((1 ||| 2) :: body)
          (2 :: body) f1.rowGroups.flatten ++ []) from rfl]
    rw [show f1.rowGroups.flatten =
        [mkRow sg (2 :: body), mkRow s1 (3 :: (body ++ a1)),
         mkRow s2 (3 :: (body ++ a2))] ++ [] from rfl]
    simp only [List.append_nil]
    rw [show ((1 ||| 2) : Nat) = 3 from rfl]
    rw [show gpuRows false (.bin (2 :: body)) (3 :: body) (2 :: body)
        [mkRow sg (2 :: body), mkRow s1 (3 :: (body ++ a1)),
         mkRow s2 (3 :: (body ++ a2))] = [sg, s1, s2] from by
      simp [gpuRows, mkRow, List.filter, isPrefixOf_self_append, List.isPrefixOf]]
  · have hst : (set_deposit_files initDeposit [mkDataPFile (2 :: body)
        [mkRow s1 (3 :: (body ++ a1)), mkRow s2 (3 :: (body ++ a2))]]).1 =
        ⟨[mkDataPFile (2 :: body)
          [mkRow s1 (3 :: (body ++ a1)), mkRow s2 (3 :: (body ++ a2))]],
         [0], [], [((2 :: body), [0])]⟩ := by
      rw [show (set_deposit_files initDeposit [mkDataPFile (2 :: body)
        [mkRow s1 (3 :: (body ++ a1)), mkRow s2 (3 :: (body ++ a2))]]).1 =
        ({ pfiles := [mkDataPFile (2 :: body)
            [mkRow s1 (3 :: (body ++ a1)), mkRow s2 (3 :: (body ++ a2))]],
           dataIdx := [0], annoIdx := [],
           udtMap := (chunks21 (2 :: body)).foldl (fun m k => mapAdd m k 0) [] } :
         DepositState) from rfl]
      rw [chunks21_exact (2 :: body) hglen]
      rfl
    rw [hst]
    set f2 : PFile := mkDataPFile (2 :: body)
      [mkRow s1 (3 :: (body ++ a1)), mkRow s2 (3 :: (body ++ a2))] with hf2
    set stR : DepositState := ⟨[f2], [0], [], [((2 :: body), [0])]⟩ with hstR
    have href : get_referencing_indicies H stR (.bin (2 :: body)) = .ok [0] := by
      rw [show get_referencing_indicies H stR (.bin (2 :: body)) =
          (smallBytes H (2 :: body)).bind (fun sb =>
            match mapFind stR.udtMap sb with
            | some l => Except.ok l
            | Option.none => Except.ok []) from rfl]
      rw [smallBytes_tag H (2 :: body) (by simp), exbind_ok]
      rw [show stR.udtMap = [((2 :: body), [0])] from rfl]
      rw [show gkey (2 :: body) = 2 :: body from rfl]
      rw [mapFind_single]
    have hred : get_prefixed_udts H stR (.str n) false =
        (get_referencing_indicies H stR (.bin (2 :: body))).bind
          (fun pfis => gpuFiles stR false (.str n) ((1 ||| 2) :: body)
            (2 :: body) pfis) := by
      unfold get_prefixed_udts
      rw [hn, exbind_ok2]
      rw [if_neg (by simp)]
      rfl
    rw [hred, href, exbind_ok]
    rw [show gpuFiles stR false (.str n) ((1 ||| 2) :: body) (2 :: body) [0] =
        Except.ok (gpuRows false (.str n) ((1 ||| 2) :: body) (2 :: body)
          f2.rowGroups.flatten ++ []) from rfl]
    rw [show f2.rowGroups.flatten =
        [mkRow s1 (3 :: (body ++ a1)), mkRow s2 (3 :: (body ++ a2))] ++ []
      from rfl]
    simp only [List.append_nil]
    rw [show ((1 ||| 2) : Nat) = 3 from rfl]
    rw [show gpuRows false (.str n) (3 :: body) (2 :: body)
        [mkRow s1 (3 :: (body ++ a1)), mkRow s2 (3 :: (body ++ a2))] =
        [s1, s2] from by
      simp [gpuRows, mkRow, List.filter, isPrefixOf_self_append, List.isPrefixOf]]

theorem c3_witness :
    get_prefixed_udts Hd (set_deposit_files initDeposit
      [mkDataPFile (2 :: c3body)
        [mkRow (chars "g") (2 :: c3body),
         mkRow (chars "x") (3 :: (c3body ++ List.replicate 8 1)),
         mkRow (chars "y") (3 :: (c3body ++ List.replicate 8 2))]]).1
      (.bin (2 :: c3body)) false = .ok [chars "g", chars "x", chars "y"] ∧
    get_prefixed_udts Hd (set_deposit_files initDeposit
      [mkDataPFile (2 :: c3body)
        [mkRow (chars "x") (3 :: (c3body ++ List.replicate 8 1)),
         mkRow (chars "y") (3 :: (c3body ++ List.replicate 8 2))]]).1
      (.str (chars "udt1__v__m__s__5")) false = .ok [chars "x", chars "y"] := by
  have h := c3_group_or_item Hd c3body (List.replicate 8 1) (List.replicate 8 2)
    (chars "g") (chars "x") (chars "y") (chars "udt1__v__m__s__5")
    (by decide) (by decide) (by decide) (by decide) (by decide)
  exact ⟨h.2.2.2.1, h.2.2.2.2.2⟩

theorem hexCharVal_hexDigitChar : ∀ n, n < 16 → hexCharVal (hexDigitChar n) = some n := by
  decide

theorem hexDigitChar_ne_underscore : ∀ n, n < 16 → ¬ hexDigitChar n = '_' := by
  decide

theorem fromHex_bytesHex (bs : Bytes) (h : ∀ b ∈ bs, b < 256) :
    fromHexChars (bytesHexChars bs) = .ok bs := by
  induction bs with
  | nil => rfl
  | cons b rest ih =>
    have hb : b < 256 := h b (by simp)
    have hdiv : b / 16 < 16 := by omega
    have hmod : b % 16 < 16 := by omega
    show fromHexChars (hexDigitChar (b / 16) :: hexDigitChar (b % 16) ::
      bytesHexChars rest) = .ok (b :: rest)
    unfold fromHexChars
    rw [hexCharVal_hexDigitChar _ hdiv, hexCharVal_hexDigitChar _ hmod]
    rw [ih (fun x hx => h x (by simp [hx]))]
    show Except.ok ((16 * (b / 16) + b % 16) :: rest) = .ok (b :: rest)
    rw [show 16 * (b / 16) + b % 16 = b from by omega]

theorem underscore_not_mem_hex (bs : Bytes) (h : ∀ b ∈ bs, b < 256) :
    '_' ∉ bytesHexChars bs := by
  induction bs with
  | nil => simp [bytesHexChars]
  | cons b rest ih =>
    have hb : b < 256 := h b (by simp)
    show '_' ∉ hexDigitChar (b / 16) :: hexDigitChar (b % 16) :: bytesHexChars rest
    intro hm
    rcases List.mem_cons.mp hm with heq | hm2
    · exact hexDigitChar_ne_underscore (b / 16) (by omega) heq.symm
    · rcases List.mem_cons.mp hm2 with heq | hm3
      · exact hexDigitChar_ne_underscore (b % 16) (by omega) heq.symm
      · exact ih (fun x hx => h x (by simp [hx])) hm3

theorem bytesHex_ne_nil (bs : Bytes) (h : bs ≠ []) : bytesHexChars bs ≠ [] := by
  cases bs with
  | nil => exact absurd rfl h
  | cons b rest =>
    show hexDigitChar (b / 16) :: hexDigitChar (b % 16) :: bytesHexChars rest ≠ []
    simp

theorem splitChar_not_mem (c : Char) (a : List Char) (h : c ∉ a) :
    splitChar c a = [a] := by
  induction a with
  | nil => rfl
  | cons x xs ih =>
    have hx : ¬ x = c := fun hc => h (by simp [hc])
    show (if x = c then [] :: splitChar c xs
      else match splitChar c xs with
        | [] => [[x]]
        | p :: ps => (x :: p) :: ps) = [x :: xs]
    rw [if_neg hx, ih (fun hm => h (by simp [hm]))]

theorem splitChar_append (c : Char) (a b : List Char) (h : c ∉ a) :
    splitChar c (a ++ c :: b) = a :: splitChar c b := by
  induction a with
  | nil =>
    show (if c = c then [] :: splitChar c b else _) = [] :: splitChar c b
    rw [if_pos rfl]
  | cons x xs ih =>
    have hx : ¬ x = c := fun hc => h (by simp [hc])
    show (if x = c then [] :: splitChar c (xs ++ c :: b)
      else match splitChar c (xs ++ c :: b) with
        | [] => [[x]]
        | p :: ps => (x :: p) :: ps) = (x :: xs) :: splitChar c b
    rw [if_neg hx, ih (fun hm => h (by simp [hm]))]

theorem udt1DD_not_prefixOf (l r : List Char) (hne : l ≠ []) (hu : '_' ∉ l) :
    udt1DD.isPrefixOf (udt1D ++ (l ++ r)) = false := by
  cases l with
  | nil => exact absurd rfl hne
  | cons c cs =>
    have hc : ¬ c = '_' := fun h => hu (by simp [h])
    show (['u', 'd', 't', '1', '_', '_'] : List Char).isPrefixOf
      ('u' :: 'd' :: 't' :: '1' :: '_' :: (c :: (cs ++ r))) = false
    simp [List.isPrefixOf]
    intro h
    exact absurd h.symm hc

theorem take28_split (t : Bytes) :
    t.take 6 ++ ((t.drop 6).take 8 ++ ((t.drop 14).take 6 ++ (t.drop 20).take 8)) =
      t.take 28 := by
  have h1 : t.take 28 = t.take 6 ++ (t.drop 6).take 22 := List.take_add t 6 22
  have h2 : (t.drop 6).take 22 = (t.drop 6).take 8 ++ ((t.drop 6).drop 8).take 14 :=
    List.take_add (t.drop 6) 8 14
  have h3 : ((t.drop 6).drop 8).take 14 = ((t.drop 6).drop 8).take 6 ++
      (((t.drop 6).drop 8).drop 6).take 8 := List.take_add ((t.drop 6).drop 8) 6 8
  rw [h1, h2, h3, List.drop_drop, List.drop_drop]

theorem binary_udt_str3 (H : List Char → Bytes) (h1 h2c h3c : List Char)
    (v d ts : Bytes)
    (hu1 : '_' ∉ h1) (hu2 : '_' ∉ h2c) (hu3 : '_' ∉ h3c) (hne1 : h1 ≠ [])
    (f1 : fromHexChars h1 = .ok v) (f2 : fromHexChars h2c = .ok d)
    (f3 : fromHexChars h3c = .ok ts) :
    binary_udt H (.str (udt1D ++ (h1 ++ '_' :: (h2c ++ '_' :: h3c)))) =
      .ok (2 :: (v ++ (d ++ ts))) := by
  have hDD := udt1DD_not_prefixOf h1 ('_' :: (h2c ++ '_' :: h3c)) hne1 hu1
  have hD := isPrefixOf_self_append udt1D (h1 ++ '_' :: (h2c ++ '_' :: h3c))
  have hdrop : (udt1D ++ (h1 ++ '_' :: (h2c ++ '_' :: h3c))).drop 5 =
      h1 ++ '_' :: (h2c ++ '_' :: h3c) := by
    rw [show (5 : Nat) = udt1D.length from rfl]
    exact List.drop_left _ _
  have hsplit : splitChar '_' (h1 ++ '_' :: (h2c ++ '_' :: h3c)) = [h1, h2c, h3c] := by
    rw [splitChar_append '_' h1 _ hu1, splitChar_append '_' h2c _ hu2,
      splitChar_not_mem '_' h3c hu3]
  unfold binary_udt
  dsimp only
  rw [hDD, hD]
  simp only [Bool.false_eq_true, if_false, if_true]
  rw [hdrop, hsplit]
  simp only [show pyIndex [h1, h2c, h3c] 0 = Except.ok h1 from rfl,
    show pyIndex [h1, h2c, h3c] 1 = Except.ok h2c from rfl,
    show pyIndex [h1, h2c, h3c] 2 = Except.ok h3c from rfl,
    exbind_ok2, f1, f2, f3]
  rw [if_neg (by simp)]

theorem binary_udt_str4 (H : List Char → Bytes) (h1 h2c h3c h4c : List Char)
    (v d ts im : Bytes)
    (hu1 : '_' ∉ h1) (hu2 : '_' ∉ h2c) (hu3 : '_' ∉ h3c) (hu4 : '_' ∉ h4c)
    (hne1 : h1 ≠ [])
    (f1 : fromHexChars h1 = .ok v) (f2 : fromHexChars h2c = .ok d)
    (f3 : fromHexChars h3c = .ok ts) (f4 : fromHexChars h4c = .ok im) :
    binary_udt H (.str (udt1D ++ (h1 ++ '_' :: (h2c ++ '_' :: (h3c ++ '_' :: h4c))))) =
      .ok (3 :: (v ++ (d ++ (ts ++ im)))) := by
  have hDD := udt1DD_not_prefixOf h1 ('_' :: (h2c ++ '_' :: (h3c ++ '_' :: h4c))) hne1 hu1
  have hD := isPrefixOf_self_append udt1D (h1 ++ '_' :: (h2c ++ '_' :: (h3c ++ '_' :: h4c)))
  have hdrop : (udt1D ++ (h1 ++ '_' :: (h2c ++ '_' :: (h3c ++ '_' :: h4c)))).drop 5 =
      h1 ++ '_' :: (h2c ++ '_' :: (h3c ++ '_' :: h4c)) := by
    rw [show (5 : Nat) = udt1D.length from rfl]
    exact List.drop_left _ _
  have hsplit : splitChar '_' (h1 ++ '_' :: (h2c ++ '_' :: (h3c ++ '_' :: h4c))) =
      [h1, h2c, h3c, h4c] := by
    rw [splitChar_append '_' h1 _ hu1, splitChar_append '_' h2c _ hu2,
      splitChar_append '_' h3c _ hu3, splitChar_not_mem '_' h4c hu4]
  unfold binary_udt
  dsimp only
  rw [hDD, hD]
  simp only [Bool.false_eq_true, if_false, if_true]
  rw [hdrop, hsplit]
  simp only [show pyIndex [h1, h2c, h3c, h4c] 0 = Except.ok h1 from rfl,
    show pyIndex [h1, h2c, h3c, h4c] 1 = Except.ok h2c from rfl,
    show pyIndex [h1, h2c, h3c, h4c] 2 = Except.ok h3c from rfl,
    show pyIndex [h1, h2c, h3c, h4c] 3 = Except.ok h4c from rfl,
    exbind_ok2, f1, f2, f3, f4]
  rw [if_pos (by simp)]

/-- C1: Compact Hex is lossless for the binary form — for every well-formed
Compact Key `k` (tag 2 with 21 bytes or tag 3 with 29 bytes),
`toCanonicalString` (string_udt) produces a Compact Hex string from which
`toCompactKey` (binary_udt) recovers exactly `k`, for ANY digest function,
since the hex branch never hashes. -/
theorem c1_hex_round_trip (H : List Char → Bytes) (k : Bytes) (hk : WfKey k) :
    ∃ s, string_udt (.bin k) = .ok (.str s) ∧ binary_udt H (.str s) = .ok k := by
  obtain ⟨htag, hbyte⟩ := hk
  rcases htag with ⟨h2, hl⟩ | ⟨h3, hl⟩
  · cases k with
    | nil => simp at h2
    | cons a t =>
      simp at h2
      subst h2
      simp at hl
      refine ⟨_, rfl, ?_⟩
      show binary_udt H (.str (udt1D ++ (bytesHexChars (t.take 6) ++ '_' ::
        (bytesHexChars ((t.drop 6).take 8) ++ '_' ::
          bytesHexChars ((t.drop 14).take 6))))) = .ok (2 :: t)
      have hb1 : ∀ b ∈ t.take 6, b < 256 := fun b hb =>
        hbyte b (List.mem_cons_of_mem _ (List.mem_of_mem_take hb))
      have hb2 : ∀ b ∈ (t.drop 6).take 8, b < 256 := fun b hb =>
        hbyte b (List.mem_cons_of_mem _ (List.mem_of_mem_drop (List.mem_of_mem_take hb)))
      have hb3 : ∀ b ∈ (t.drop 14).take 6, b < 256 := fun b hb =>
        hbyte b (List.mem_cons_of_mem _ (List.mem_of_mem_drop (List.mem_of_mem_take hb)))
      have hne : t.take 6 ≠ [] := by
        intro hq
        have := congrArg List.length hq
        simp [hl] at this
      rw [binary_udt_str3 H _ _ _ _ _ _
        (underscore_not_mem_hex _ hb1) (underscore_not_mem_hex _ hb2)
        (underscore_not_mem_hex _ hb3) (bytesHex_ne_nil _ hne)
        (fromHex_bytesHex _ hb1) (fromHex_bytesHex _ hb2) (fromHex_bytesHex _ hb3)]
      rw [take20_split]
      rw [List.take_of_length_le (by omega)]
  · cases k with
    | nil => simp at h3
    | cons a t =>
      simp at h3
      subst h3
      simp at hl
      refine ⟨_, rfl, ?_⟩
      show binary_udt H (.str (udt1D ++ (bytesHexChars (t.take 6) ++ '_' ::
        (bytesHexChars ((t.drop 6).take 8) ++ '_' ::
          (bytesHexChars ((t.drop 14).take 6) ++ '_' ::
            bytesHexChars ((t.drop 20).take 8)))))) = .ok (3 :: t)
      have hb1 : ∀ b ∈ t.take 6, b < 256 := fun b hb =>
        hbyte b (List.mem_cons_of_mem _ (List.mem_of_mem_take hb))
      have hb2 : ∀ b ∈ (t.drop 6).take 8, b < 256 := fun b hb =>
        hbyte b (List.mem_cons_of_mem _ (List.mem_of_mem_drop (List.mem_of_mem_take hb)))
      have hb3 : ∀ b ∈ (t.drop 14).take 6, b < 256 := fun b hb =>
        hbyte b (List.mem_cons_of_mem _ (List.mem_of_mem_drop (List.mem_of_mem_take hb)))
      have hb4 : ∀ b ∈ (t.drop 20).take 8, b < 256 := fun b hb =>
        hbyte b (List.mem_cons_of_mem _ (List.mem_of_mem_drop (List.mem_of_mem_take hb)))
      have hne : t.take 6 ≠ [] := by
        intro hq
        have := congrArg List.length hq
        simp [hl] at this
      rw [binary_udt_str4 H _ _ _ _ _ _ _ _
        (underscore_not_mem_hex _ hb1) (underscore_not_mem_hex _ hb2)
        (underscore_not_mem_hex _ hb3) (underscore_not_mem_hex _ hb4)
        (bytesHex_ne_nil _ hne)
        (fromHex_bytesHex _ hb1) (fromHex_bytesHex _ hb2)
        (fromHex_bytesHex _ hb3) (fromHex_bytesHex _ hb4)]
      rw [take28_split]
      rw [List.take_of_length_le (by omega)]

theorem c1_witness :
    WfKey (sampleKey 7) ∧
    (∃ s, string_udt (.bin (sampleKey 7)) = .ok (.str s) ∧
      binary_udt Hd (.str s) = .ok (sampleKey 7)) :=
  ⟨by decide, c1_hex_round_trip Hd (sampleKey 7) (by decide)⟩

end Crab
